import Mathlib

/-!
Mastermind server: scoring and game-state engine

A shallow embedding of `main.go` (package `main`): the scoring function
`evaluateGuess`, the handlers `handleNewGame` and `handleGuess` from the point
where the JSON request has been decoded, and the package-level map `games`.

Conventions of the embedding.

* Go `int` is modelled by `Int`.  The only arithmetic on it is `++` / `--` on
  counters bounded by a slice length and the guarded `AttemptsLeft--`, none of
  which can leave the 64-bit range, so no wrap-around is modelled.
* Go slices `[]int` are modelled by `List Int`; indexing out of range is the
  run-time panic of Go and is modelled by `none`.
* The map `games` of pointers to `Game` is modelled by an association list;
  every stored pointer is fresh (`&Game{...}` in `handleNewGame`), so updating
  a game through its pointer is the update of the entry of its key.
* `crypto/rand` is modelled by an explicit record of the outcomes of the calls
  made to it, each a value or a returned error.
* `handleNewGame` describes the calls that return: a `make` that cannot allocate
  the secret, or a run time that aborts rather than return an error from the
  random source, is not modelled.
-/

namespace Mastermind

/-! ## Data model -/

/-- Go `type Game struct`. -/
structure Game where
  Secret : List Int
  AttemptsMax : Int
  AttemptsLeft : Int
  CodeLength : Int
  Colors : Int
  deriving DecidableEq, Repr

/-- Go `type NewGameRequest struct`; a field missing in the JSON body is 0. -/
structure NewGameRequest where
  CodeLength : Int
  Colors : Int
  Attempts : Int
  deriving DecidableEq, Repr

/-- Go `type NewGameResponse struct` (the identifier and the embedded `Game`). -/
structure NewGameResponse where
  ID : String
  Game : Game
  deriving DecidableEq, Repr

/-- Go `type GuessRequest struct`. -/
structure GuessRequest where
  ID : String
  Guess : List Int
  deriving DecidableEq, Repr

/-- Go `type GuessResponse struct`. -/
structure GuessResponse where
  Exact : Int
  Partial : Int
  AttemptsLeft : Int
  Won : Bool
  Lost : Bool
  Secret : List Int
  deriving DecidableEq, Repr

/-- The `secret` key of the encoded `GuessResponse`: the field is tagged
`json:"secret,omitempty"`, so the key is present exactly when the slice is
non-empty. -/
def GuessResponse.secretJSON (resp : GuessResponse) : Option (List Int) :=
  if resp.Secret.length = 0 then none else some resp.Secret

/-! ## The scoring function -/

/-- Go `map[int]int`: reading a key that was never written yields 0. -/
abbrev Counts := Int → Int

/-- The empty map `map[int]int{}`. -/
def Counts.empty : Counts := fun _ => 0

/-- The statement `counts[k]++`. -/
def Counts.incr (counts : Counts) (k : Int) : Counts :=
  fun c => if c = k then counts c + 1 else counts c

/-- The statement `counts[k]--`. -/
def Counts.decr (counts : Counts) (k : Int) : Counts :=
  fun c => if c = k then counts c - 1 else counts c

/-- Body of the first loop of `evaluateGuess` at index `i`, on the state
`(exact, counts)`. -/
def firstLoopBody (secret guess : List Int) (st : Int × Counts) (i : Nat) :
    Option (Int × Counts) :=
  match secret[i]?, guess[i]? with
  | some s, some g =>
    if s = g then some (st.1 + 1, st.2) else some (st.1, st.2.incr s)
  | _, _ => none

/-- Body of the second loop of `evaluateGuess` at index `i`, on the state
`(partial, counts)`. -/
def secondLoopBody (secret guess : List Int) (st : Int × Counts) (i : Nat) :
    Option (Int × Counts) :=
  match secret[i]?, guess[i]? with
  | some s, some g =>
    if s ≠ g then
      if st.2 g > 0 then some (st.1 + 1, st.2.decr g) else some st
    else some st
  | _, _ => none

/-- Go `func evaluateGuess(secret []int, guess []int) (int, int)`.  Both loops
run `i` over `0 .. len(secret)-1`; `none` is the index-out-of-range panic. -/
def evaluateGuess (secret guess : List Int) : Option (Int × Int) :=
  match (List.range secret.length).foldlM (firstLoopBody secret guess) (0, Counts.empty) with
  | none => none
  | some (exact, counts) =>
    match (List.range secret.length).foldlM (secondLoopBody secret guess) (0, counts) with
    | none => none
    | some (part, _) => some (exact, part)

/-! ## The registry -/

/-- The package-level `games = map[string]*Game{}`. -/
abbrev Registry := List (String × Game)

/-- The lookup `g, ok := games[id]`. -/
def Registry.find? : Registry → String → Option Game
  | [], _ => none
  | (k, g) :: rest, id => if k = id then some g else Registry.find? rest id

/-- The assignment `games[id] = g`; also the effect of a write through the
pointer stored under `id`. -/
def Registry.store : Registry → String → Game → Registry
  | [], id, g => [(id, g)]
  | (k, v) :: rest, id, g =>
    if k = id then (k, g) :: rest else (k, v) :: Registry.store rest id g

/-! ## The random source -/

/-- Outcomes of the calls to `crypto/rand` made by one `handleNewGame`:
`ints i` is the outcome of the `i`-th call of `rand.Int` (`none`: the call
returns an error; `some r`: it succeeds, and the value returned for a bound
`max` is `r % max`, which ranges over all of `[0, max)`); `bytes` is the
outcome of `rand.Read` (`none`: error, `some bs`: the bytes read). -/
structure RandSource where
  ints : Nat → Option Nat
  bytes : Option (List Nat)

/-- Go `func randInt(max int) (int64, error)`: the value and whether an error
is returned, for the `i`-th call. -/
def randInt (rs : RandSource) (i : Nat) (max : Int) : Int × Bool :=
  match rs.ints i with
  | none => (0, true)
  | some r => ((r : Int) % max, false)

/-- One hexadecimal digit, as `hex.EncodeToString` writes it. -/
def hexDigit (n : Nat) : Char :=
  "0123456789abcdef".toList.getD n '0'

/-- Go `hex.EncodeToString`. -/
def hexEncode (bs : List Nat) : String :=
  String.mk (bs.flatMap (fun b => [hexDigit (b % 256 / 16), hexDigit (b % 16)]))

/-- Go `func randID(n int) string`. -/
def randID (rs : RandSource) (_n : Nat) : String :=
  match rs.bytes with
  | none => "id"
  | some bs => hexEncode bs

/-! ## The handlers -/

/-- The loop of `handleNewGame` filling `secret`: index `i` receives the value
of the `i`-th `randInt(req.Colors)`, the error being discarded (`n, _ :=`). -/
def genSecret (rs : RandSource) (codeLength : Nat) (colors : Int) : List Int :=
  (List.range codeLength).map (fun i => (randInt rs i colors).1)

/-- Go `func handleNewGame`, from the decoded request on: the response written
and the registry after the call. -/
def handleNewGame (rs : RandSource) (games : Registry) (req : NewGameRequest) :
    NewGameResponse × Registry :=
  let req := if req.CodeLength ≤ 0 then { req with CodeLength := 4 } else req
  let req := if req.Colors ≤ 0 then { req with Colors := 6 } else req
  let req := if req.Attempts ≤ 0 then { req with Attempts := 10 } else req
  let secret := genSecret rs req.CodeLength.toNat req.Colors
  let id := randID rs 12
  let g : Game :=
    { Secret := secret, AttemptsMax := req.Attempts, AttemptsLeft := req.Attempts,
      CodeLength := req.CodeLength, Colors := req.Colors }
  ({ ID := id, Game := g }, games.store id g)

/-- How a `handleGuess` call can end without a `GuessResponse`. -/
inductive GuessError where
  /-- The reply `http.Error(w, "game not found", http.StatusNotFound)`. -/
  | gameNotFound
  /-- The reply `http.Error(w, "invalid guess length", http.StatusBadRequest)`. -/
  | invalidGuessLength
  /-- The index-out-of-range panic inside `evaluateGuess`. -/
  | indexOutOfRange
  deriving DecidableEq, Repr

/-- The HTTP status written by `http.Error` for each error reply; the panic
writes none. -/
def GuessError.status : GuessError → Option Nat
  | .gameNotFound => some 404
  | .invalidGuessLength => some 400
  | .indexOutOfRange => none

/-- Go `func handleGuess`, from the decoded request on: the reply and the
registry after the call. -/
def handleGuess (games : Registry) (req : GuessRequest) :
    Except GuessError GuessResponse × Registry :=
  match games.find? req.ID with
  | none => (.error .gameNotFound, games)
  | some g =>
    if (req.Guess.length : Int) ≠ g.CodeLength then (.error .invalidGuessLength, games)
    else
      match evaluateGuess g.Secret req.Guess with
      | none => (.error .indexOutOfRange, games)
      | some (exact, part) =>
        let g := if g.AttemptsLeft > 0 then { g with AttemptsLeft := g.AttemptsLeft - 1 } else g
        let won := decide (exact = g.CodeLength)
        let lost := decide (g.AttemptsLeft ≤ 0) && !won
        let resp : GuessResponse :=
          { Exact := exact, Partial := part, AttemptsLeft := g.AttemptsLeft,
            Won := won, Lost := lost, Secret := [] }
        let resp := if lost then { resp with Secret := g.Secret } else resp
        (.ok resp, games.store req.ID g)

/-! ## Auxiliary notions used to describe the score -/

/-- Number of positions at which the two lists agree. -/
def exactCount : List Int → List Int → Nat
  | s :: ss, g :: gs => (if s = g then 1 else 0) + exactCount ss gs
  | _, _ => 0

/-- The secret colours at the positions where secret and guess differ. -/
def restSecret : List Int → List Int → List Int
  | s :: ss, g :: gs => if s = g then restSecret ss gs else s :: restSecret ss gs
  | _, _ => []

/-- The guessed colours at the positions where secret and guess differ. -/
def restGuess : List Int → List Int → List Int
  | s :: ss, g :: gs => if s = g then restGuess ss gs else g :: restGuess ss gs
  | _, _ => []

/-- The colours at the positions where secret and guess agree. -/
def exactColours : List Int → List Int → List Int
  | s :: ss, g :: gs => if s = g then s :: exactColours ss gs else exactColours ss gs
  | _, _ => []

/-- The map `counts` holding the multiplicities of a list of colours. -/
def countsOf (m : List Int) : Counts := fun c => (m.count c : Int)

/-! ## Sequences of calls -/

/-- The registries that arise from the empty map `games` by calls of
`handleNewGame` and `handleGuess`, whatever their requests, replies and random
outcomes. -/
inductive Reachable : Registry → Prop where
  | empty : Reachable []
  | newGame (games : Registry) (rs : RandSource) (req : NewGameRequest) :
      Reachable games → Reachable (handleNewGame rs games req).2
  | guess (games : Registry) (req : GuessRequest) :
      Reachable games → Reachable (handleGuess games req).2

/-- Successive calls of `handleGuess` with the same identifier, one per guess:
the replies in order and the registry after the last call. -/
def playGuesses (games : Registry) (id : String) :
    List (List Int) → List (Except GuessError GuessResponse) × Registry
  | [] => ([], games)
  | guess :: rest =>
    let first := handleGuess games { ID := id, Guess := guess }
    let others := playGuesses first.2 id rest
    (first.1 :: others.1, others.2)

/-- The properties of a stored game that `handleNewGame` establishes and
`handleGuess` keeps. -/
def Game.valid (g : Game) : Prop :=
  (g.Secret.length : Int) = g.CodeLength ∧ 0 < g.CodeLength ∧ 0 < g.Colors ∧
  0 < g.AttemptsMax ∧ 0 ≤ g.AttemptsLeft ∧ g.AttemptsLeft ≤ g.AttemptsMax ∧
  ∀ x, x ∈ g.Secret → 0 ≤ x ∧ x < g.Colors

/-! ## Concurrent calls of `handleGuess`

`handleGuess` holds `mu` only around the lookup `games[req.ID]`; everything after
`mu.Unlock()` runs without the lock.  A call in progress is modelled by the
point it has reached, with one step per access to the shared field
`g.AttemptsLeft`.  `Secret` and `CodeLength` are never written after creation,
so the copy `g` taken at the lookup stands for later reads of them, and the
pointer `g` is the key under which the game is stored. -/

/-- The read of `g.AttemptsLeft` through the pointer stored under `id`. -/
def Registry.readAttempts (games : Registry) (id : String) : Int :=
  match games.find? id with
  | some g => g.AttemptsLeft
  | none => 0

/-- The write of `g.AttemptsLeft` through the pointer stored under `id`. -/
def Registry.writeAttempts (games : Registry) (id : String) (v : Int) : Registry :=
  match games.find? id with
  | some g => games.store id { g with AttemptsLeft := v }
  | none => games

/-- The points a call of `handleGuess` passes through. -/
inductive GuessThread where
  /-- Before `mu.Lock()`. -/
  | start (req : GuessRequest)
  /-- After `evaluateGuess`, before the test `g.AttemptsLeft > 0`. -/
  | scored (id : String) (g : Game) (exact part : Int)
  /-- The test held; before the read of the operand of `g.AttemptsLeft--`. -/
  | decRead (id : String) (g : Game) (exact part : Int)
  /-- The operand `v` of `g.AttemptsLeft--` was read; before the write of `v - 1`. -/
  | decWrite (id : String) (g : Game) (exact part : Int) (v : Int)
  /-- Before `won := ...` and the read in `lost := g.AttemptsLeft <= 0 && !won`. -/
  | afterDec (id : String) (g : Game) (exact part : Int)
  /-- Before the read in `GuessResponse{..., AttemptsLeft: g.AttemptsLeft, ...}`. -/
  | flagged (id : String) (g : Game) (exact part : Int) (won lost : Bool)
  /-- The reply has been written. -/
  | done (reply : Except GuessError GuessResponse)

/-- One step of a call of `handleGuess` on the shared registry. -/
def GuessThread.step (games : Registry) : GuessThread → GuessThread × Registry
  | .start req =>
    match games.find? req.ID with
    | none => (.done (.error .gameNotFound), games)
    | some g =>
      if (req.Guess.length : Int) ≠ g.CodeLength then
        (.done (.error .invalidGuessLength), games)
      else
        match evaluateGuess g.Secret req.Guess with
        | none => (.done (.error .indexOutOfRange), games)
        | some (exact, part) => (.scored req.ID g exact part, games)
  | .scored id g exact part =>
    if games.readAttempts id > 0 then (.decRead id g exact part, games)
    else (.afterDec id g exact part, games)
  | .decRead id g exact part => (.decWrite id g exact part (games.readAttempts id), games)
  | .decWrite id g exact part v => (.afterDec id g exact part, games.writeAttempts id (v - 1))
  | .afterDec id g exact part =>
    let won := decide (exact = g.CodeLength)
    let lost := decide (games.readAttempts id ≤ 0) && !won
    (.flagged id g exact part won lost, games)
  | .flagged id g exact part won lost =>
    let resp : GuessResponse :=
      { Exact := exact, Partial := part, AttemptsLeft := games.readAttempts id,
        Won := won, Lost := lost, Secret := [] }
    let resp := if lost then { resp with Secret := g.Secret } else resp
    (.done (.ok resp), games)
  | .done reply => (.done reply, games)

/-- One call running on its own for `n` steps. -/
def GuessThread.runAlone (games : Registry) (t : GuessThread) : Nat → GuessThread × Registry
  | 0 => (t, games)
  | n + 1 =>
    let r := t.step games
    GuessThread.runAlone r.2 r.1 n

/-- The shared registry and the calls of `handleGuess` in progress. -/
structure Conc where
  games : Registry
  threads : List GuessThread

/-- The step of the system in which the call number `i` advances. -/
def Conc.step (c : Conc) (i : Nat) : Conc :=
  match c.threads[i]? with
  | none => c
  | some t =>
    let r := t.step c.games
    { games := r.2, threads := c.threads.set i r.1 }

/-- The run of the system under a schedule, the list of the calls that advance
in turn. -/
def Conc.run (c : Conc) (schedule : List Nat) : Conc :=
  schedule.foldl Conc.step c

/-! ## The loops of `evaluateGuess` -/

theorem foldlM_range_succ {σ : Type} (f : σ → Nat → Option σ) (n : Nat) (init : σ) :
    (List.range (n + 1)).foldlM f init =
      (f init 0).bind (fun st => (List.range n).foldlM (fun st i => f st (i + 1)) st) := by
  rw [List.range_succ_eq_map, List.foldlM_cons]
  cases f init 0 with
  | none => rfl
  | some st => simp [List.foldlM_map]

theorem firstLoopBody_cons (s g : Int) (ss gs : List Int) :
    (fun st i => firstLoopBody (s :: ss) (g :: gs) st (i + 1)) = firstLoopBody ss gs := by
  funext st i
  simp [firstLoopBody]

theorem secondLoopBody_cons (s g : Int) (ss gs : List Int) :
    (fun st i => secondLoopBody (s :: ss) (g :: gs) st (i + 1)) = secondLoopBody ss gs := by
  funext st i
  simp [secondLoopBody]

theorem firstLoop_eq (secret : List Int) :
    ∀ (guess : List Int) (e : Int) (cnt : Counts), secret.length ≤ guess.length →
      (List.range secret.length).foldlM (firstLoopBody secret guess) (e, cnt) =
        some (e + exactCount secret guess,
          fun c => cnt c + ((restSecret secret guess).count c : Int)) := by
  induction secret with
  | nil => intro guess e cnt _; simp [exactCount, restSecret]
  | cons s ss ih =>
    intro guess e cnt h
    cases guess with
    | nil => simp at h
    | cons g gs =>
      have h1 : ss.length ≤ gs.length := by simpa using h
      rw [List.length_cons, foldlM_range_succ, firstLoopBody_cons]
      by_cases hsg : s = g
      · subst hsg
        simp only [firstLoopBody, List.getElem?_cons_zero, if_true, Option.some_bind]
        rw [ih gs _ _ h1]
        simp [exactCount, restSecret, add_assoc]
      · simp only [firstLoopBody, List.getElem?_cons_zero, if_neg hsg, Option.some_bind]
        rw [ih gs _ _ h1]
        simp only [exactCount, restSecret, if_neg hsg, Option.some.injEq, Prod.mk.injEq]
        refine ⟨by simp, ?_⟩
        funext c
        by_cases hc : c = s
        · subst hc; simp [Counts.incr]; omega
        · have hc1 : s ≠ c := fun h => hc h.symm
          simp [Counts.incr, hc, List.count_cons_of_ne hc1]

theorem countsOf_decr (m : List Int) (g : Int) (hg : g ∈ m) :
    (countsOf m).decr g = countsOf (m.erase g) := by
  funext c
  by_cases hc : c = g
  · subst hc
    have hpos : 0 < m.count c := List.count_pos_iff.mpr hg
    simp only [Counts.decr, countsOf, if_true, List.count_erase_self]
    omega
  · simp [Counts.decr, countsOf, hc, List.count_erase_of_ne hc]

theorem secondLoop_eq (secret : List Int) :
    ∀ (guess : List Int) (p : Int) (m : List Int), secret.length ≤ guess.length →
      ∃ m1, (List.range secret.length).foldlM (secondLoopBody secret guess) (p, countsOf m) =
        some (p + (((restGuess secret guess).bagInter m).length : Int), countsOf m1) := by
  induction secret with
  | nil => intro guess p m _; exact ⟨m, by simp [restGuess]⟩
  | cons s ss ih =>
    intro guess p m h
    cases guess with
    | nil => simp at h
    | cons g gs =>
      have h1 : ss.length ≤ gs.length := by simpa using h
      rw [List.length_cons, foldlM_range_succ, secondLoopBody_cons]
      by_cases hsg : s = g
      · subst hsg
        obtain ⟨m1, hm1⟩ := ih gs p m h1
        refine ⟨m1, ?_⟩
        simp only [secondLoopBody, List.getElem?_cons_zero, ne_eq, not_true_eq_false, if_false,
          Option.some_bind]
        rw [hm1]
        simp [restGuess]
      · by_cases hg : g ∈ m
        · have hpos : countsOf m g > 0 := by
            have := List.count_pos_iff.mpr hg
            simp only [countsOf]; omega
          obtain ⟨m1, hm1⟩ := ih gs (p + 1) (m.erase g) h1
          refine ⟨m1, ?_⟩
          simp only [secondLoopBody, List.getElem?_cons_zero, ne_eq, hsg, not_false_eq_true,
            if_true, hpos, Option.some_bind]
          rw [countsOf_decr m g hg, hm1]
          simp [restGuess, hsg, List.cons_bagInter_of_pos _ hg]; omega
        · have hzero : ¬ (countsOf m g > 0) := by
            have := List.count_eq_zero_of_not_mem hg
            simp only [countsOf]; omega
          obtain ⟨m1, hm1⟩ := ih gs p m h1
          refine ⟨m1, ?_⟩
          simp only [secondLoopBody, List.getElem?_cons_zero, ne_eq, hsg, not_false_eq_true,
            if_true, hzero, if_false, Option.some_bind]
          rw [hm1]
          simp [restGuess, hsg, List.cons_bagInter_of_neg _ hg]

/-- Closed form of `evaluateGuess` when the guess is at least as long as the
secret. -/
theorem evaluateGuess_eq (secret guess : List Int) (h : secret.length ≤ guess.length) :
    evaluateGuess secret guess =
      some ((exactCount secret guess : Int),
        (((restGuess secret guess).bagInter (restSecret secret guess)).length : Int)) := by
  unfold evaluateGuess
  rw [firstLoop_eq secret guess 0 Counts.empty h]
  have hc : (fun c => Counts.empty c + ((restSecret secret guess).count c : Int)) =
      countsOf (restSecret secret guess) := by
    funext c; simp [Counts.empty, countsOf]
  obtain ⟨m1, hm1⟩ := secondLoop_eq secret guess 0 (restSecret secret guess) h
  simp only [hc, hm1]
  simp

/-! ## Counting lemmas -/

theorem exactColours_length (secret : List Int) :
    ∀ guess : List Int, (exactColours secret guess).length = exactCount secret guess := by
  induction secret with
  | nil => intro guess; simp [exactColours, exactCount]
  | cons s ss ih =>
    intro guess
    cases guess with
    | nil => simp [exactColours, exactCount]
    | cons g gs =>
      by_cases hsg : s = g
      · simp [exactColours, exactCount, hsg, ih gs, add_comm]
      · simp [exactColours, exactCount, hsg, ih gs]

theorem exactCount_eq_filter (secret : List Int) :
    ∀ guess : List Int, exactCount secret guess =
      ((List.range secret.length).filter (fun i => decide (secret[i]? = guess[i]?))).length := by
  induction secret with
  | nil => intro guess; simp [exactCount]
  | cons s ss ih =>
    intro guess
    cases guess with
    | nil =>
      have hnil : (List.range (s :: ss).length).filter
          (fun i => decide ((s :: ss)[i]? = ([] : List Int)[i]?)) = [] := by
        rw [List.filter_eq_nil_iff]
        intro i hi
        rw [List.mem_range] at hi
        simp only [List.length_cons] at hi
        simp
        omega
      rw [hnil]; simp [exactCount]
    | cons g gs =>
      rw [List.length_cons, List.range_succ_eq_map, List.filter_cons, List.filter_map]
      have hf : ((fun i => decide ((s :: ss)[i]? = (g :: gs)[i]?)) ∘ Nat.succ) =
          (fun i => decide (ss[i]? = gs[i]?)) := by
        funext i; simp
      rw [hf]
      by_cases hsg : s = g
      · simp [exactCount, hsg, ih gs, add_comm]
      · simp [exactCount, hsg, ih gs]

theorem count_secret_split (c : Int) (secret : List Int) :
    ∀ guess : List Int, secret.length ≤ guess.length →
      secret.count c = (exactColours secret guess).count c + (restSecret secret guess).count c := by
  induction secret with
  | nil => intro guess _; simp [exactColours, restSecret]
  | cons s ss ih =>
    intro guess h
    cases guess with
    | nil => simp at h
    | cons g gs =>
      have h1 : ss.length ≤ gs.length := by simpa using h
      have := ih gs h1
      by_cases hsg : s = g
      · simp only [exactColours, restSecret, hsg, if_true, List.count_cons]
        rw [← hsg, this]; omega
      · simp only [exactColours, restSecret, hsg, if_false, List.count_cons]
        rw [this]; omega

theorem count_guess_split (c : Int) (secret : List Int) :
    ∀ guess : List Int, guess.length ≤ secret.length →
      guess.count c = (exactColours secret guess).count c + (restGuess secret guess).count c := by
  induction secret with
  | nil =>
    intro guess h
    have : guess = [] := by simpa using h
    subst this; simp [exactColours, restGuess]
  | cons s ss ih =>
    intro guess h
    cases guess with
    | nil => simp [exactColours, restGuess]
    | cons g gs =>
      have h1 : gs.length ≤ ss.length := by simpa using h
      have := ih gs h1
      by_cases hsg : s = g
      · simp only [exactColours, restGuess, hsg, if_true, List.count_cons]
        rw [this]; omega
      · simp only [exactColours, restGuess, hsg, if_false, List.count_cons]
        rw [this]; omega

theorem mem_exactColours (c : Int) (secret : List Int) :
    ∀ guess : List Int, c ∈ exactColours secret guess → c ∈ secret ∧ c ∈ guess := by
  induction secret with
  | nil => intro guess h; simp [exactColours] at h
  | cons s ss ih =>
    intro guess h
    cases guess with
    | nil => simp [exactColours] at h
    | cons g gs =>
      by_cases hsg : s = g
      · simp only [exactColours, hsg, if_true, List.mem_cons] at h
        rcases h with h | h
        · simp [h, hsg]
        · have := ih gs h; simp [this]
      · simp only [exactColours, hsg, if_false] at h
        have := ih gs h; simp [this]

theorem mem_restSecret (c : Int) (secret : List Int) :
    ∀ guess : List Int, c ∈ restSecret secret guess → c ∈ secret := by
  induction secret with
  | nil => intro guess h; simp [restSecret] at h
  | cons s ss ih =>
    intro guess h
    cases guess with
    | nil => simp [restSecret] at h
    | cons g gs =>
      by_cases hsg : s = g
      · simp only [restSecret, hsg, if_true] at h
        have := ih gs h; simp [this]
      · simp only [restSecret, hsg, if_false, List.mem_cons] at h
        rcases h with h | h
        · simp [h]
        · have := ih gs h; simp [this]

theorem mem_restGuess (c : Int) (secret : List Int) :
    ∀ guess : List Int, c ∈ restGuess secret guess → c ∈ guess := by
  induction secret with
  | nil => intro guess h; simp [restGuess] at h
  | cons s ss ih =>
    intro guess h
    cases guess with
    | nil => simp [restGuess] at h
    | cons g gs =>
      by_cases hsg : s = g
      · simp only [restGuess, hsg, if_true] at h
        have := ih gs h; simp [this]
      · simp only [restGuess, hsg, if_false, List.mem_cons] at h
        rcases h with h | h
        · simp [h]
        · have := ih gs h; simp [this]

theorem mem_restGuess_ne (x : Int) (secret : List Int) :
    ∀ guess : List Int, x ∈ restGuess secret guess → ∃ s, s ∈ secret ∧ s ≠ x := by
  induction secret with
  | nil => intro guess h; simp [restGuess] at h
  | cons s ss ih =>
    intro guess h
    cases guess with
    | nil => simp [restGuess] at h
    | cons g gs =>
      by_cases hsg : s = g
      · simp only [restGuess, hsg, if_true] at h
        obtain ⟨t, ht, hne⟩ := ih gs h
        exact ⟨t, by simp [ht], hne⟩
      · simp only [restGuess, hsg, if_false, List.mem_cons] at h
        rcases h with h | h
        · exact ⟨s, by simp, by rw [h]; exact hsg⟩
        · obtain ⟨t, ht, hne⟩ := ih gs h
          exact ⟨t, by simp [ht], hne⟩

theorem sum_count_eq_length (colours : Finset Int) (l : List Int) :
    (∀ c, c ∈ l → c ∈ colours) → ∑ c ∈ colours, l.count c = l.length := by
  induction l with
  | nil => intro _; simp
  | cons a l ih =>
    intro h
    have ha : a ∈ colours := h a (by simp)
    have hl : ∀ c, c ∈ l → c ∈ colours := fun c hc => h c (by simp [hc])
    have h1 : ∀ c ∈ colours, (a :: l).count c = l.count c + (if a = c then 1 else 0) := by
      intro c _
      rw [List.count_cons]
      by_cases hac : a = c <;> simp [hac]
    rw [Finset.sum_congr rfl h1, Finset.sum_add_distrib, ih hl, Finset.sum_ite_eq]
    simp [ha]

/-- The total score is the size of the multiset intersection of secret and
guess. -/
theorem score_sum (secret guess : List Int) (hlen : secret.length = guess.length)
    (colours : Finset Int) (hcol : ∀ c, c ∈ secret → c ∈ guess → c ∈ colours) :
    exactCount secret guess + ((restGuess secret guess).bagInter (restSecret secret guess)).length =
      ∑ c ∈ colours, min (secret.count c) (guess.count c) := by
  have h1 : ∀ c ∈ colours, min (secret.count c) (guess.count c) =
      (exactColours secret guess).count c +
        ((restGuess secret guess).bagInter (restSecret secret guess)).count c := by
    intro c _
    rw [count_secret_split c secret guess (le_of_eq hlen),
      count_guess_split c secret guess (le_of_eq hlen.symm), List.count_bagInter]
    omega
  rw [Finset.sum_congr rfl h1, Finset.sum_add_distrib, sum_count_eq_length, sum_count_eq_length,
    exactColours_length]
  · intro c hc
    rw [List.mem_bagInter] at hc
    exact hcol c (mem_restSecret c secret guess hc.2) (mem_restGuess c secret guess hc.1)
  · intro c hc
    have := mem_exactColours c secret guess hc
    exact hcol c this.1 this.2

theorem exactCount_le (secret : List Int) :
    ∀ guess : List Int, exactCount secret guess ≤ secret.length := by
  induction secret with
  | nil => intro guess; simp [exactCount]
  | cons s ss ih =>
    intro guess
    cases guess with
    | nil => simp [exactCount]
    | cons g gs =>
      have := ih gs
      by_cases hsg : s = g
      · simp only [exactCount, hsg, if_true, List.length_cons]; omega
      · simp only [exactCount, hsg, if_false, List.length_cons]; omega

theorem exactCount_eq_length_iff (secret : List Int) :
    ∀ guess : List Int, secret.length = guess.length →
      (exactCount secret guess = secret.length ↔ secret = guess) := by
  induction secret with
  | nil =>
    intro guess h
    have : guess = [] := by simpa using h.symm
    subst this; simp [exactCount]
  | cons s ss ih =>
    intro guess h
    cases guess with
    | nil => simp at h
    | cons g gs =>
      have h1 : ss.length = gs.length := by simpa using h
      have hle := exactCount_le ss gs
      have := ih gs h1
      by_cases hsg : s = g
      · simp only [exactCount, hsg, if_true, List.length_cons, List.cons.injEq, true_and]
        rw [← this]; omega
      · simp only [exactCount, hsg, if_false, List.length_cons, List.cons.injEq, false_and,
          iff_false]
        omega

theorem restGuess_self (secret : List Int) : restGuess secret secret = [] := by
  induction secret with
  | nil => simp [restGuess]
  | cons s ss ih => simp [restGuess, ih]

theorem exactCount_add_restGuess (secret : List Int) :
    ∀ guess : List Int, secret.length ≤ guess.length →
      exactCount secret guess + (restGuess secret guess).length = secret.length := by
  induction secret with
  | nil => intro guess _; simp [exactCount, restGuess]
  | cons s ss ih =>
    intro guess h
    cases guess with
    | nil => simp at h
    | cons g gs =>
      have h1 : ss.length ≤ gs.length := by simpa using h
      have := ih gs h1
      by_cases hsg : s = g
      · simp only [exactCount, restGuess, hsg, if_true, List.length_cons]; omega
      · simp only [exactCount, restGuess, hsg, if_false, List.length_cons]; omega

theorem bagInter_length_le (l m : List Int) : (l.bagInter m).length ≤ l.length :=
  (List.bagInter_sublist_left l m).length_le

/-! ## The registry and the handlers -/

theorem Registry.find?_store_self (games : Registry) (id : String) (g : Game) :
    (games.store id g).find? id = some g := by
  induction games with
  | nil => simp [Registry.store, Registry.find?]
  | cons kv rest ih =>
    obtain ⟨k, v⟩ := kv
    by_cases hk : k = id
    · simp [Registry.store, Registry.find?, hk]
    · simp [Registry.store, Registry.find?, hk, ih]

/-- The reply and the registry after a guess of the right length against a game
whose secret has `CodeLength` entries. -/
theorem handleGuess_accepted (games : Registry) (req : GuessRequest) (g : Game)
    (hfind : games.find? req.ID = some g)
    (hlen : (req.Guess.length : Int) = g.CodeLength)
    (hwf : (g.Secret.length : Int) = g.CodeLength) :
    handleGuess games req =
      (.ok
        { Exact := exactCount g.Secret req.Guess
          Partial := ((restGuess g.Secret req.Guess).bagInter (restSecret g.Secret req.Guess)).length
          AttemptsLeft := if g.AttemptsLeft > 0 then g.AttemptsLeft - 1 else g.AttemptsLeft
          Won := decide ((exactCount g.Secret req.Guess : Int) = g.CodeLength)
          Lost := decide ((if g.AttemptsLeft > 0 then g.AttemptsLeft - 1 else g.AttemptsLeft) ≤ 0)
            && !decide ((exactCount g.Secret req.Guess : Int) = g.CodeLength)
          Secret :=
            if (decide ((if g.AttemptsLeft > 0 then g.AttemptsLeft - 1 else g.AttemptsLeft) ≤ 0)
              && !decide ((exactCount g.Secret req.Guess : Int) = g.CodeLength)) = true
            then g.Secret else [] },
        games.store req.ID
          { g with AttemptsLeft :=
              if g.AttemptsLeft > 0 then g.AttemptsLeft - 1 else g.AttemptsLeft }) := by
  have hle : g.Secret.length ≤ req.Guess.length := by omega
  have hnot : ¬ ((req.Guess.length : Int) ≠ g.CodeLength) := by simp [hlen]
  unfold handleGuess
  rw [hfind]
  simp only [hnot, if_false, evaluateGuess_eq g.Secret req.Guess hle]
  by_cases hpos : g.AttemptsLeft > 0
  · simp only [hpos, if_true]
    split <;> simp_all
  · simp only [hpos, if_false]
    split <;> simp_all

/-- Every game built by `handleNewGame` has a secret of `CodeLength` entries and
a positive `CodeLength`: the hypothesis on stored games used below. -/
theorem handleNewGame_secret_length (rs : RandSource) (games : Registry)
    (req : NewGameRequest) :
    (((handleNewGame rs games req).1.Game.Secret.length : Int) =
      (handleNewGame rs games req).1.Game.CodeLength) ∧
    0 < (handleNewGame rs games req).1.Game.CodeLength := by
  by_cases h1 : req.CodeLength ≤ 0 <;> by_cases h2 : req.Colors ≤ 0 <;>
    by_cases h3 : req.Attempts ≤ 0 <;>
    simp [handleNewGame, genSecret, h1, h2, h3] <;> omega

/-- The reply of an accepted guess, field by field. -/
theorem handleGuess_accepted_fields (games : Registry) (req : GuessRequest) (g : Game)
    (hfind : games.find? req.ID = some g)
    (hlen : (req.Guess.length : Int) = g.CodeLength)
    (hwf : (g.Secret.length : Int) = g.CodeLength) :
    ∃ resp left,
      handleGuess games req = (.ok resp, games.store req.ID { g with AttemptsLeft := left }) ∧
      left = (if g.AttemptsLeft > 0 then g.AttemptsLeft - 1 else g.AttemptsLeft) ∧
      resp.Exact = exactCount g.Secret req.Guess ∧
      resp.AttemptsLeft = left ∧
      resp.Won = decide (resp.Exact = g.CodeLength) ∧
      resp.Lost = (decide (left ≤ 0) && !resp.Won) ∧
      resp.Secret = (if resp.Lost = true then g.Secret else []) :=
  ⟨_, _, handleGuess_accepted games req g hfind hlen hwf, rfl, rfl, rfl, rfl, rfl, rfl⟩

theorem secret_ne_nil_of_not_won (g : Game) (guess : List Int)
    (hwf : (g.Secret.length : Int) = g.CodeLength)
    (hnot : ¬ ((exactCount g.Secret guess : Int) = g.CodeLength)) :
    g.Secret.length ≠ 0 := by
  intro h0
  apply hnot
  have hle := exactCount_le g.Secret guess
  omega

/-! ## Scoring -/

/-- C1: for secret and guess of equal length `evaluateGuess` returns a pair
`(exact, partial)` of non-negative counters; `exact` is the number of indices
`i < len(secret)` with `secret[i] = guess[i]`, and `exact + partial` is the sum,
over any finite set of colours containing those common to secret and guess, of
the minimum of the number of occurrences in the secret and in the guess. -/
theorem C1_evaluateGuess_score (secret guess : List Int)
    (hlen : secret.length = guess.length)
    (colours : Finset Int) (hcol : ∀ c, c ∈ secret → c ∈ guess → c ∈ colours) :
    ∃ exact part : Nat,
      evaluateGuess secret guess = some ((exact : Int), (part : Int)) ∧
      exact = ((List.range secret.length).filter
        (fun i => decide (secret[i]? = guess[i]?))).length ∧
      exact + part = ∑ c ∈ colours, min (secret.count c) (guess.count c) :=
  ⟨exactCount secret guess,
    ((restGuess secret guess).bagInter (restSecret secret guess)).length,
    evaluateGuess_eq secret guess (le_of_eq hlen),
    exactCount_eq_filter secret guess,
    score_sum secret guess hlen colours hcol⟩

/-- C1 at secret `[1,1,2,2]`, guess `[1,2,1,2]` and colours `{1, 2}`. -/
theorem C1_evaluateGuess_score_witness :
    ([1, 1, 2, 2] : List Int).length = ([1, 2, 1, 2] : List Int).length ∧
    ∃ exact part : Nat,
      evaluateGuess [1, 1, 2, 2] [1, 2, 1, 2] = some ((exact : Int), (part : Int)) ∧
      exact = ((List.range ([1, 1, 2, 2] : List Int).length).filter
        (fun i => decide (([1, 1, 2, 2] : List Int)[i]? = ([1, 2, 1, 2] : List Int)[i]?))).length ∧
      exact + part = ∑ c ∈ ({1, 2} : Finset Int),
        min (([1, 1, 2, 2] : List Int).count c) (([1, 2, 1, 2] : List Int).count c) :=
  ⟨rfl, C1_evaluateGuess_score [1, 1, 2, 2] [1, 2, 1, 2] rfl {1, 2} (by
    intro c hc _
    simp only [List.mem_cons, List.mem_singleton, List.not_mem_nil, or_false] at hc
    simp only [Finset.mem_insert, Finset.mem_singleton]
    tauto)⟩

/-- C3: for secret and guess of the same length `evaluateGuess` returns
non-negative `exact` and `partial` with `exact + partial ≤ len(secret)`; for
secret `[1,1,2,2]` and guess `[1,2,1,2]` it returns `exact = 2`, `partial = 2`. -/
theorem C3_total_le_codeLength (secret guess : List Int)
    (hlen : secret.length = guess.length) :
    (∃ exact part : Int, evaluateGuess secret guess = some (exact, part) ∧
      0 ≤ exact ∧ 0 ≤ part ∧ exact + part ≤ (secret.length : Int)) ∧
    evaluateGuess [1, 1, 2, 2] [1, 2, 1, 2] = some (2, 2) := by
  refine ⟨⟨_, _, evaluateGuess_eq secret guess (le_of_eq hlen), ?_, ?_, ?_⟩, by decide⟩
  · exact Int.natCast_nonneg _
  · exact Int.natCast_nonneg _
  · have h1 := exactCount_add_restGuess secret guess (le_of_eq hlen)
    have h2 := bagInter_length_le (restGuess secret guess) (restSecret secret guess)
    omega

/-- C3 at secret `[1,1,2,2]` and guess `[2,2,2,2]`. -/
theorem C3_total_le_codeLength_witness :
    ([1, 1, 2, 2] : List Int).length = ([2, 2, 2, 2] : List Int).length ∧
    ((∃ exact part : Int, evaluateGuess [1, 1, 2, 2] [2, 2, 2, 2] = some (exact, part) ∧
      0 ≤ exact ∧ 0 ≤ part ∧ exact + part ≤ (([1, 1, 2, 2] : List Int).length : Int)) ∧
    evaluateGuess [1, 1, 2, 2] [1, 2, 1, 2] = some (2, 2)) :=
  ⟨rfl, C3_total_le_codeLength [1, 1, 2, 2] [2, 2, 2, 2] rfl⟩

/-- C4: when every position of the secret holds the colour `c` and the guess has
the length of the secret, `evaluateGuess` returns `partial = 0` and `exact` the
number of positions of the guess holding `c`; for secret `[1,1,1,1]` and guess
`[1,1,2,2]` it returns `exact = 2`, `partial = 0`. -/
theorem C4_no_reuse_of_exact (secret guess : List Int) (c : Int)
    (hconst : ∀ x, x ∈ secret → x = c) (hlen : secret.length = guess.length) :
    evaluateGuess secret guess = some ((guess.count c : Int), 0) ∧
    evaluateGuess [1, 1, 1, 1] [1, 1, 2, 2] = some (2, 0) := by
  refine ⟨?_, by decide⟩
  rw [evaluateGuess_eq secret guess (le_of_eq hlen)]
  have hnot : c ∉ restGuess secret guess := by
    intro hc
    obtain ⟨t, ht, hne⟩ := mem_restGuess_ne c secret guess hc
    exact hne (hconst t ht)
  have hinter : (restGuess secret guess).bagInter (restSecret secret guess) = [] := by
    rw [List.eq_nil_iff_forall_not_mem]
    intro x hx
    rw [List.mem_bagInter] at hx
    have hxc : x = c := hconst x (mem_restSecret x secret guess hx.2)
    exact hnot (hxc ▸ hx.1)
  have hexact : exactCount secret guess = guess.count c := by
    rw [count_guess_split c secret guess (le_of_eq hlen.symm),
      List.count_eq_zero_of_not_mem hnot, ← exactColours_length, add_zero]
    exact (List.count_eq_length.mpr
      (fun y hy => (hconst y (mem_exactColours y secret guess hy).1).symm)).symm
  rw [hinter, hexact]
  rfl

/-- C4 at the constant secret `[5,5,5]`, colour `5`, and guess `[5,0,3]`. -/
theorem C4_no_reuse_of_exact_witness :
    (∀ x, x ∈ ([5, 5, 5] : List Int) → x = 5) ∧
    ([5, 5, 5] : List Int).length = ([5, 0, 3] : List Int).length ∧
    (evaluateGuess [5, 5, 5] [5, 0, 3] = some ((([5, 0, 3] : List Int).count 5 : Int), 0) ∧
    evaluateGuess [1, 1, 1, 1] [1, 1, 2, 2] = some (2, 0)) :=
  ⟨by decide, rfl, C4_no_reuse_of_exact [5, 5, 5] [5, 0, 3] 5 (by decide) rfl⟩

/-- C5: when the guess is a rearrangement of the secret, `evaluateGuess` returns
`exact` and `partial` with `exact + partial = len(secret)`; for secret
`[1,2,3,4]` and guess `[4,3,2,1]` it returns `exact = 0`, `partial = 4`. -/
theorem C5_permutation_total (secret guess : List Int) (hperm : guess.Perm secret) :
    (∃ exact part : Int, evaluateGuess secret guess = some (exact, part) ∧
      exact + part = (secret.length : Int)) ∧
    evaluateGuess [1, 2, 3, 4] [4, 3, 2, 1] = some (0, 4) := by
  have hlen : secret.length = guess.length := hperm.length_eq.symm
  refine ⟨⟨_, _, evaluateGuess_eq secret guess (le_of_eq hlen), ?_⟩, by decide⟩
  have hsum := score_sum secret guess hlen secret.toFinset
    (fun c hc _ => List.mem_toFinset.mpr hc)
  have hmin : ∀ c ∈ secret.toFinset, min (secret.count c) (guess.count c) = secret.count c := by
    intro c _
    rw [hperm.count_eq c, min_self]
  rw [Finset.sum_congr rfl hmin,
    sum_count_eq_length secret.toFinset secret (fun c hc => List.mem_toFinset.mpr hc)] at hsum
  exact_mod_cast hsum

/-- C5 at secret `[3,1,3,0]` and its rearrangement `[0,3,3,1]`. -/
theorem C5_permutation_total_witness :
    ([0, 3, 3, 1] : List Int).Perm [3, 1, 3, 0] ∧
    ((∃ exact part : Int, evaluateGuess [3, 1, 3, 0] [0, 3, 3, 1] = some (exact, part) ∧
      exact + part = (([3, 1, 3, 0] : List Int).length : Int)) ∧
    evaluateGuess [1, 2, 3, 4] [4, 3, 2, 1] = some (0, 4)) :=
  ⟨by decide, C5_permutation_total [3, 1, 3, 0] [0, 3, 3, 1] (by decide)⟩

/-! ## Guess handling -/

/-- C2: for a game whose secret has `CodeLength` entries and a guess of length
`CodeLength`, `handleGuess` replies with `Won = true` exactly when the guess
agrees with the secret at every position below `CodeLength`, and then
`Exact = CodeLength` and `Partial = 0`; for secret `[1,2,3,4]` and guess
`[1,2,3,4]` the reply has `Exact = 4`, `Partial = 0`, `Won = true`. -/
theorem C2_won_iff_guess_is_secret (games : Registry) (req : GuessRequest) (g : Game)
    (hfind : games.find? req.ID = some g)
    (hwf : (g.Secret.length : Int) = g.CodeLength)
    (hlen : (req.Guess.length : Int) = g.CodeLength) :
    (∃ resp, (handleGuess games req).1 = .ok resp ∧
      (resp.Won = true ↔
        ∀ i : Nat, (i : Int) < g.CodeLength → req.Guess[i]? = g.Secret[i]?) ∧
      (resp.Won = true → resp.Exact = g.CodeLength ∧ resp.Partial = 0)) ∧
    (handleGuess
        [("a", { Secret := [1, 2, 3, 4], AttemptsMax := 10, AttemptsLeft := 10,
                 CodeLength := 4, Colors := 6 })]
        { ID := "a", Guess := [1, 2, 3, 4] }).1 =
      .ok { Exact := 4, Partial := 0, AttemptsLeft := 9, Won := true, Lost := false,
            Secret := [] } := by
  refine ⟨?_, by rfl⟩
  have hl : g.Secret.length = req.Guess.length := by omega
  have hiff := exactCount_eq_length_iff g.Secret req.Guess hl
  have hwon : (exactCount g.Secret req.Guess : Int) = g.CodeLength ↔ g.Secret = req.Guess := by
    rw [← hiff, ← hwf]; omega
  rw [handleGuess_accepted games req g hfind hlen hwf]
  refine ⟨_, rfl, ?_, ?_⟩
  · simp only [decide_eq_true_eq]
    rw [hwon]
    constructor
    · intro h i _; rw [h]
    · intro h
      apply List.ext_getElem?
      intro i
      by_cases hi : (i : Int) < g.CodeLength
      · exact (h i hi).symm
      · have h1 : g.Secret.length ≤ i := by omega
        have h2 : req.Guess.length ≤ i := by omega
        rw [List.getElem?_eq_none h1, List.getElem?_eq_none h2]
  · simp only [decide_eq_true_eq]
    intro h
    refine ⟨h, ?_⟩
    rw [← hwon.mp h, restGuess_self]
    simp

/-- C2 at a one-game registry with secret `[0,5]` and the guess `[0,5]`. -/
theorem C2_won_iff_guess_is_secret_witness :
    Registry.find?
        [("g1", { Secret := [0, 5], AttemptsMax := 3, AttemptsLeft := 2,
                  CodeLength := 2, Colors := 6 })] "g1" =
      some { Secret := [0, 5], AttemptsMax := 3, AttemptsLeft := 2, CodeLength := 2,
             Colors := 6 } ∧
    (∃ resp, (handleGuess
        [("g1", { Secret := [0, 5], AttemptsMax := 3, AttemptsLeft := 2,
                  CodeLength := 2, Colors := 6 })]
        { ID := "g1", Guess := [0, 5] }).1 = .ok resp ∧
      (resp.Won = true ↔
        ∀ i : Nat, (i : Int) < 2 → ([0, 5] : List Int)[i]? = ([0, 5] : List Int)[i]?) ∧
      (resp.Won = true → resp.Exact = 2 ∧ resp.Partial = 0)) :=
  ⟨by decide,
    (C2_won_iff_guess_is_secret
      [("g1", { Secret := [0, 5], AttemptsMax := 3, AttemptsLeft := 2,
                CodeLength := 2, Colors := 6 })]
      { ID := "g1", Guess := [0, 5] }
      { Secret := [0, 5], AttemptsMax := 3, AttemptsLeft := 2, CodeLength := 2, Colors := 6 }
      (by decide) (by decide) (by decide)).1⟩

/-- C6: for a game whose secret has `CodeLength` entries (as every game stored by
`handleNewGame`) and a guess of length `CodeLength`, the encoded reply of
`handleGuess` carries the key `secret` exactly when `Lost = true`, and then its
value is the secret of the game; the key is absent when `Won = true` and when
the game is neither won nor lost. -/
theorem C6_secret_revealed_iff_lost (games : Registry) (req : GuessRequest) (g : Game)
    (hfind : games.find? req.ID = some g)
    (hwf : (g.Secret.length : Int) = g.CodeLength)
    (hlen : (req.Guess.length : Int) = g.CodeLength) :
    ∃ resp, (handleGuess games req).1 = .ok resp ∧
      (resp.secretJSON ≠ none ↔ resp.Lost = true) ∧
      (resp.Lost = true → resp.secretJSON = some g.Secret) ∧
      (resp.Won = true → resp.secretJSON = none) ∧
      (resp.Won = false → resp.Lost = false → resp.secretJSON = none) := by
  obtain ⟨resp, left, hrun, _, hexact, _, hwon, hlost, hsecret⟩ :=
    handleGuess_accepted_fields games req g hfind hlen hwf
  refine ⟨resp, by rw [hrun], ?_⟩
  have hyes : resp.Lost = true → resp.secretJSON = some g.Secret := by
    intro hl
    have hnw : resp.Won = false := by
      rw [hlost] at hl
      cases hw : resp.Won <;> simp_all
    have hne : g.Secret.length ≠ 0 := by
      apply secret_ne_nil_of_not_won g req.Guess hwf
      rw [hwon, hexact] at hnw
      simpa using hnw
    simp [GuessResponse.secretJSON, hsecret, hl, hne]
  have hno : resp.Lost = false → resp.secretJSON = none := by
    intro hl
    simp [GuessResponse.secretJSON, hsecret, hl]
  have hwl : resp.Won = true → resp.Lost = false := by
    intro hw; rw [hlost, hw]; simp
  refine ⟨?_, hyes, fun hw => hno (hwl hw), fun _ hl => hno hl⟩
  constructor
  · intro h
    cases hl : resp.Lost
    · exact absurd (hno hl) h
    · rfl
  · intro hl; rw [hyes hl]; simp

/-- C6 at a one-game registry with one attempt left and a wrong guess. -/
theorem C6_secret_revealed_iff_lost_witness :
    ∃ resp, (handleGuess
        [("g1", { Secret := [0, 5], AttemptsMax := 3, AttemptsLeft := 1,
                  CodeLength := 2, Colors := 6 })]
        { ID := "g1", Guess := [5, 5] }).1 = .ok resp ∧
      (resp.secretJSON ≠ none ↔ resp.Lost = true) ∧
      (resp.Lost = true → resp.secretJSON = some [0, 5]) ∧
      (resp.Won = true → resp.secretJSON = none) ∧
      (resp.Won = false → resp.Lost = false → resp.secretJSON = none) :=
  C6_secret_revealed_iff_lost
    [("g1", { Secret := [0, 5], AttemptsMax := 3, AttemptsLeft := 1,
              CodeLength := 2, Colors := 6 })]
    { ID := "g1", Guess := [5, 5] }
    { Secret := [0, 5], AttemptsMax := 3, AttemptsLeft := 1, CodeLength := 2, Colors := 6 }
    (by decide) (by decide) (by decide)

/-- C7: for a guess of length `CodeLength` against a stored game whose secret has
`CodeLength` entries, `handleGuess` stores `AttemptsLeft - 1` when the counter
was positive and leaves it at 0 when it was 0, whatever the score; the reply
carries the stored value; and when the counter was 1, a second such guess
against the same game leaves the stored and the reported counter at 0. -/
theorem C7_attempts_decrement (games : Registry) (req : GuessRequest) (g : Game)
    (hfind : games.find? req.ID = some g)
    (hwf : (g.Secret.length : Int) = g.CodeLength)
    (hlen : (req.Guess.length : Int) = g.CodeLength) :
    ∃ resp g1, (handleGuess games req).1 = .ok resp ∧
      (handleGuess games req).2.find? req.ID = some g1 ∧
      (g.AttemptsLeft > 0 → g1.AttemptsLeft = g.AttemptsLeft - 1) ∧
      (g.AttemptsLeft = 0 → g1.AttemptsLeft = 0) ∧
      resp.AttemptsLeft = g1.AttemptsLeft ∧
      (g.AttemptsLeft = 1 → ∀ guess2 : List Int, (guess2.length : Int) = g.CodeLength →
        ∃ resp2 g2,
          (handleGuess (handleGuess games req).2 { ID := req.ID, Guess := guess2 }).1
            = .ok resp2 ∧
          (handleGuess (handleGuess games req).2 { ID := req.ID, Guess := guess2 }).2.find? req.ID
            = some g2 ∧
          g2.AttemptsLeft = 0 ∧ resp2.AttemptsLeft = 0) := by
  obtain ⟨resp, left, hrun, hleft, _, hal, _, _, _⟩ :=
    handleGuess_accepted_fields games req g hfind hlen hwf
  refine ⟨resp, { g with AttemptsLeft := left }, by rw [hrun], ?_, ?_, ?_, hal, ?_⟩
  · rw [hrun]; exact Registry.find?_store_self _ _ _
  · intro hpos; simp [hleft, hpos]
  · intro h0; simp [hleft, h0]
  · intro h1 guess2 hlen2
    have hleft0 : left = 0 := by simp [hleft, h1]
    rw [hrun]
    obtain ⟨resp2, left2, hrun2, hleft2, _, hal2, _, _, _⟩ :=
      handleGuess_accepted_fields (games.store req.ID { g with AttemptsLeft := left })
        { ID := req.ID, Guess := guess2 } { g with AttemptsLeft := left }
        (Registry.find?_store_self _ _ _) hlen2 hwf
    have hleft20 : left2 = 0 := by simp [hleft2, hleft0]
    refine ⟨resp2, { ({ g with AttemptsLeft := left } : Game) with AttemptsLeft := left2 },
      by rw [hrun2], ?_, hleft20, by rw [hal2, hleft20]⟩
    rw [hrun2]
    exact Registry.find?_store_self _ _ _

/-- C7 at a one-game registry with one attempt left. -/
theorem C7_attempts_decrement_witness :
    ∃ resp g1, (handleGuess
        [("g1", { Secret := [0, 5], AttemptsMax := 1, AttemptsLeft := 1,
                  CodeLength := 2, Colors := 6 })]
        { ID := "g1", Guess := [5, 5] }).1 = .ok resp ∧
      Registry.find? (handleGuess
        [("g1", { Secret := [0, 5], AttemptsMax := 1, AttemptsLeft := 1,
                  CodeLength := 2, Colors := 6 })]
        { ID := "g1", Guess := [5, 5] }).2 "g1" = some g1 ∧
      g1.AttemptsLeft = 0 ∧ resp.AttemptsLeft = g1.AttemptsLeft := by
  obtain ⟨resp, g1, h1, h2, h3, _, h5, _⟩ := C7_attempts_decrement
    [("g1", { Secret := [0, 5], AttemptsMax := 1, AttemptsLeft := 1,
              CodeLength := 2, Colors := 6 })]
    { ID := "g1", Guess := [5, 5] }
    { Secret := [0, 5], AttemptsMax := 1, AttemptsLeft := 1, CodeLength := 2, Colors := 6 }
    (by decide) (by decide) (by decide)
  exact ⟨resp, g1, h1, h2, by simpa using h3 (by decide), h5⟩

/-- C8: for a guess of length `CodeLength` against a stored game whose secret has
`CodeLength` entries, the reply of `handleGuess` has `Lost = true` exactly when
the counter stored after the call is `≤ 0` and `Won = false`; `Won` and `Lost`
are never both true; and when exactly one attempt was left and the guess does
not win, the reply has `AttemptsLeft = 0`, `Lost = true` and carries the
secret. -/
theorem C8_lost_iff_exhausted_and_not_won (games : Registry) (req : GuessRequest) (g : Game)
    (hfind : games.find? req.ID = some g)
    (hwf : (g.Secret.length : Int) = g.CodeLength)
    (hlen : (req.Guess.length : Int) = g.CodeLength) :
    ∃ resp g1, (handleGuess games req).1 = .ok resp ∧
      (handleGuess games req).2.find? req.ID = some g1 ∧
      (resp.Lost = true ↔ (g1.AttemptsLeft ≤ 0 ∧ resp.Won = false)) ∧
      ¬ (resp.Won = true ∧ resp.Lost = true) ∧
      (g.AttemptsLeft = 1 → resp.Won = false →
        resp.AttemptsLeft = 0 ∧ resp.Lost = true ∧ resp.secretJSON = some g.Secret) := by
  obtain ⟨resp, left, hrun, hleft, hexact, hal, hwon, hlost, hsecret⟩ :=
    handleGuess_accepted_fields games req g hfind hlen hwf
  refine ⟨resp, { g with AttemptsLeft := left }, by rw [hrun], ?_, ?_, ?_, ?_⟩
  · rw [hrun]; exact Registry.find?_store_self _ _ _
  · rw [hlost]
    cases hw : resp.Won <;> simp
  · rw [hlost]
    cases hw : resp.Won <;> simp
  · intro h1 hnw
    have hleft0 : left = 0 := by simp [hleft, h1]
    have hl : resp.Lost = true := by rw [hlost, hnw, hleft0]; rfl
    have hne : g.Secret.length ≠ 0 := by
      apply secret_ne_nil_of_not_won g req.Guess hwf
      rw [hwon, hexact] at hnw
      simpa using hnw
    refine ⟨by rw [hal, hleft0], hl, ?_⟩
    simp [GuessResponse.secretJSON, hsecret, hl, hne]

/-- C8 at a one-game registry with one attempt left and a wrong guess. -/
theorem C8_lost_iff_exhausted_and_not_won_witness :
    ∃ resp g1, (handleGuess
        [("g1", { Secret := [0, 5], AttemptsMax := 1, AttemptsLeft := 1,
                  CodeLength := 2, Colors := 6 })]
        { ID := "g1", Guess := [5, 0] }).1 = .ok resp ∧
      Registry.find? (handleGuess
        [("g1", { Secret := [0, 5], AttemptsMax := 1, AttemptsLeft := 1,
                  CodeLength := 2, Colors := 6 })]
        { ID := "g1", Guess := [5, 0] }).2 "g1" = some g1 ∧
      (resp.Lost = true ↔ (g1.AttemptsLeft ≤ 0 ∧ resp.Won = false)) ∧
      ¬ (resp.Won = true ∧ resp.Lost = true) ∧
      ((1 : Int) = 1 → resp.Won = false →
        resp.AttemptsLeft = 0 ∧ resp.Lost = true ∧ resp.secretJSON = some [0, 5]) :=
  C8_lost_iff_exhausted_and_not_won
    [("g1", { Secret := [0, 5], AttemptsMax := 1, AttemptsLeft := 1,
              CodeLength := 2, Colors := 6 })]
    { ID := "g1", Guess := [5, 0] }
    { Secret := [0, 5], AttemptsMax := 1, AttemptsLeft := 1, CodeLength := 2, Colors := 6 }
    (by decide) (by decide) (by decide)

/-! ## Game creation -/

/-- C9: `handleNewGame` replaces `CodeLength`, `Colors` and `Attempts` each on its
own by 4, 6 and 10 when the supplied value is `≤ 0` (0 being an absent field)
and keeps a positive supplied value; the game of the reply, which is the one
stored under the returned identifier, has `AttemptsMax = AttemptsLeft =` the
effective attempts; with all three values `≤ 0` the reply has `CodeLength = 4`,
`Colors = 6`, `AttemptsMax = 10`, `AttemptsLeft = 10`. -/
theorem C9_newGame_defaults (rs : RandSource) (games : Registry) (req : NewGameRequest) :
    ∃ resp games1, handleNewGame rs games req = (resp, games1) ∧
      games1.find? resp.ID = some resp.Game ∧
      (req.CodeLength ≤ 0 → resp.Game.CodeLength = 4) ∧
      (0 < req.CodeLength → resp.Game.CodeLength = req.CodeLength) ∧
      (req.Colors ≤ 0 → resp.Game.Colors = 6) ∧
      (0 < req.Colors → resp.Game.Colors = req.Colors) ∧
      (req.Attempts ≤ 0 → resp.Game.AttemptsMax = 10) ∧
      (0 < req.Attempts → resp.Game.AttemptsMax = req.Attempts) ∧
      resp.Game.AttemptsLeft = resp.Game.AttemptsMax ∧
      (req.CodeLength ≤ 0 → req.Colors ≤ 0 → req.Attempts ≤ 0 →
        resp.Game.CodeLength = 4 ∧ resp.Game.Colors = 6 ∧
        resp.Game.AttemptsMax = 10 ∧ resp.Game.AttemptsLeft = 10) := by
  refine ⟨_, _, rfl, ?_, ?_⟩
  · exact Registry.find?_store_self _ _ _
  · by_cases h1 : req.CodeLength ≤ 0 <;> by_cases h2 : req.Colors ≤ 0 <;>
      by_cases h3 : req.Attempts ≤ 0 <;>
      simp [handleNewGame, h1, h2, h3]

/-- C9 at the request with all three fields absent and at a request with all
three supplied. -/
theorem C9_newGame_defaults_witness :
    (∀ (rs : RandSource) (games : Registry),
      (handleNewGame rs games { CodeLength := 0, Colors := 0, Attempts := 0 }).1.Game.CodeLength = 4
      ∧ (handleNewGame rs games { CodeLength := 0, Colors := 0, Attempts := 0 }).1.Game.Colors = 6
      ∧ (handleNewGame rs games { CodeLength := 0, Colors := 0, Attempts := 0 }).1.Game.AttemptsMax
          = 10
      ∧ (handleNewGame rs games { CodeLength := 0, Colors := 0, Attempts := 0 }).1.Game.AttemptsLeft
          = 10) ∧
    (∀ (rs : RandSource) (games : Registry),
      (handleNewGame rs games { CodeLength := 5, Colors := 8, Attempts := 12 }).1.Game.CodeLength
        = 5) := by
  constructor
  · intro rs games
    obtain ⟨resp, games1, hrun, _, _, _, _, _, _, _, _, hall⟩ :=
      C9_newGame_defaults rs games { CodeLength := 0, Colors := 0, Attempts := 0 }
    rw [hrun]
    exact hall (by decide) (by decide) (by decide)
  · intro rs games
    obtain ⟨resp, games1, hrun, _, _, hkeep, _⟩ :=
      C9_newGame_defaults rs games { CodeLength := 5, Colors := 8, Attempts := 12 }
    rw [hrun]
    exact hkeep (by decide)

/-! ## Rejected guesses -/

/-- C10: for a stored game and a guess whose length differs from `CodeLength`,
`handleGuess` replies with the invalid-guess error, an HTTP 400, and returns the
registry it was given; a guess whose length is `CodeLength` is never answered
with the invalid-guess error. -/
theorem C10_invalid_guess_length (games : Registry) (req : GuessRequest) (g : Game)
    (hfind : games.find? req.ID = some g) :
    ((req.Guess.length : Int) ≠ g.CodeLength →
      handleGuess games req = (.error .invalidGuessLength, games)) ∧
    GuessError.invalidGuessLength.status = some 400 ∧
    ((req.Guess.length : Int) = g.CodeLength →
      (handleGuess games req).1 ≠ .error .invalidGuessLength) := by
  refine ⟨?_, rfl, ?_⟩
  · intro hne
    simp [handleGuess, hfind, hne]
  · intro heq
    have hnot : ¬ ((req.Guess.length : Int) ≠ g.CodeLength) := by simp [heq]
    unfold handleGuess
    rw [hfind]
    simp only [hnot, if_false]
    cases evaluateGuess g.Secret req.Guess with
    | none => simp
    | some r => simp

/-- C10 at a one-game registry of code length 2 and a guess of length 3. -/
theorem C10_invalid_guess_length_witness :
    handleGuess
        [("g1", { Secret := [0, 5], AttemptsMax := 1, AttemptsLeft := 1,
                  CodeLength := 2, Colors := 6 })]
        { ID := "g1", Guess := [0, 5, 1] } =
      (.error .invalidGuessLength,
        [("g1", { Secret := [0, 5], AttemptsMax := 1, AttemptsLeft := 1,
                  CodeLength := 2, Colors := 6 })]) :=
  (C10_invalid_guess_length
    [("g1", { Secret := [0, 5], AttemptsMax := 1, AttemptsLeft := 1,
              CodeLength := 2, Colors := 6 })]
    { ID := "g1", Guess := [0, 5, 1] }
    { Secret := [0, 5], AttemptsMax := 1, AttemptsLeft := 1, CodeLength := 2, Colors := 6 }
    (by decide)).1 (by decide)

/-! ## Unknown identifiers and the frame of a guess -/

theorem Registry.find?_store_ne (games : Registry) (id other : String) (g : Game)
    (hne : other ≠ id) :
    (games.store id g).find? other = games.find? other := by
  induction games with
  | nil =>
    have hne1 : ¬ id = other := fun h => hne h.symm
    simp [Registry.store, Registry.find?, hne1]
  | cons kv rest ih =>
    obtain ⟨k, v⟩ := kv
    by_cases hk : k = id
    · subst hk
      have hko : ¬ k = other := fun h => hne h.symm
      simp [Registry.store, Registry.find?, hko]
    · by_cases hko : k = other
      · subst hko
        simp [Registry.store, Registry.find?, hk]
      · simp [Registry.store, Registry.find?, hk, hko, ih]

theorem Registry.keys_store (games : Registry) (id : String) (g g1 : Game)
    (hfind : games.find? id = some g) :
    (games.store id g1).map Prod.fst = games.map Prod.fst := by
  induction games with
  | nil => simp [Registry.find?] at hfind
  | cons kv rest ih =>
    obtain ⟨k, v⟩ := kv
    by_cases hk : k = id
    · simp [Registry.store, hk]
    · simp only [Registry.find?, hk, if_false] at hfind
      simp [Registry.store, hk, ih hfind]

/-- The registry after a `handleGuess`: the one given, or the one given with the
counter of the game under `req.ID` after the guarded decrement. -/
theorem handleGuess_registry (games : Registry) (req : GuessRequest) :
    (handleGuess games req).2 = games ∨
    ∃ g, games.find? req.ID = some g ∧
      (handleGuess games req).2 = games.store req.ID
        { g with AttemptsLeft :=
            if g.AttemptsLeft > 0 then g.AttemptsLeft - 1 else g.AttemptsLeft } := by
  unfold handleGuess
  cases hfind : games.find? req.ID with
  | none => left; rfl
  | some g =>
    by_cases hlen : (req.Guess.length : Int) ≠ g.CodeLength
    · left; simp [hlen]
    · cases hev : evaluateGuess g.Secret req.Guess with
      | none => left; simp [hlen, hev]
      | some r =>
        right
        refine ⟨g, rfl, ?_⟩
        by_cases hpos : g.AttemptsLeft > 0 <;> simp [hlen, hev, hpos]

/-- C11: `handleGuess` replies with the game-not-found error (HTTP 404) exactly
when the identifier is not a key of the registry, whatever the guess, and then
the registry returned is the one given. -/
theorem C11_game_not_found (games : Registry) (req : GuessRequest) :
    ((handleGuess games req).1 = .error .gameNotFound ↔ games.find? req.ID = none) ∧
    (games.find? req.ID = none →
      handleGuess games req = (.error .gameNotFound, games)) ∧
    GuessError.gameNotFound.status = some 404 := by
  refine ⟨?_, ?_, rfl⟩
  · constructor
    · intro h
      cases hfind : games.find? req.ID with
      | none => rfl
      | some g =>
        exfalso
        unfold handleGuess at h
        rw [hfind] at h
        by_cases hlen : (req.Guess.length : Int) ≠ g.CodeLength
        · simp [hlen] at h
        · cases hev : evaluateGuess g.Secret req.Guess with
          | none => simp [hlen, hev] at h
          | some r => simp [hlen, hev] at h
    · intro hfind
      simp [handleGuess, hfind]
  · intro hfind
    simp [handleGuess, hfind]

/-- C11 at a one-game registry and an identifier that is not a key, with a guess
of the wrong length. -/
theorem C11_game_not_found_witness :
    handleGuess
        [("g1", { Secret := [0, 5], AttemptsMax := 1, AttemptsLeft := 1,
                  CodeLength := 2, Colors := 6 })]
        { ID := "zz", Guess := [0, 5, 1] } =
      (.error .gameNotFound,
        [("g1", { Secret := [0, 5], AttemptsMax := 1, AttemptsLeft := 1,
                  CodeLength := 2, Colors := 6 })]) :=
  (C11_game_not_found
    [("g1", { Secret := [0, 5], AttemptsMax := 1, AttemptsLeft := 1,
              CodeLength := 2, Colors := 6 })]
    { ID := "zz", Guess := [0, 5, 1] }).2.1 (by decide)

/-- C12: a `handleGuess` for the identifier `req.ID` leaves the list of keys of
the registry and the game under every other key as they were, and the game
under `req.ID` keeps its `Secret`, `CodeLength`, `Colors` and `AttemptsMax`. -/
theorem C12_guess_frame (games : Registry) (req : GuessRequest) :
    (handleGuess games req).2.map Prod.fst = games.map Prod.fst ∧
    (∀ other : String, other ≠ req.ID →
      (handleGuess games req).2.find? other = games.find? other) ∧
    (∀ g : Game, games.find? req.ID = some g →
      ∃ g1, (handleGuess games req).2.find? req.ID = some g1 ∧
        g1.Secret = g.Secret ∧ g1.CodeLength = g.CodeLength ∧
        g1.Colors = g.Colors ∧ g1.AttemptsMax = g.AttemptsMax) ∧
    (games.find? req.ID = none → (handleGuess games req).2.find? req.ID = none) := by
  rcases handleGuess_registry games req with h | ⟨g, hfind, h⟩
  · rw [h]
    exact ⟨rfl, fun _ _ => rfl, fun g hg => ⟨g, hg, rfl, rfl, rfl, rfl⟩, fun hn => hn⟩
  · rw [h]
    refine ⟨Registry.keys_store games req.ID g _ hfind,
      fun other hne => Registry.find?_store_ne games req.ID other _ hne, ?_, ?_⟩
    · intro g0 hg0
      have hgg : g0 = g := by rw [hfind] at hg0; exact (Option.some.inj hg0).symm
      subst hgg
      exact ⟨_, Registry.find?_store_self _ _ _, rfl, rfl, rfl, rfl⟩
    · intro hn; rw [hfind] at hn; exact absurd hn (by simp)

/-- C12 at a two-game registry and an accepted guess against the first game. -/
theorem C12_guess_frame_witness :
    Registry.find? (handleGuess
        [("g1", { Secret := [0, 5], AttemptsMax := 3, AttemptsLeft := 3,
                  CodeLength := 2, Colors := 6 }),
         ("g2", { Secret := [1], AttemptsMax := 2, AttemptsLeft := 1,
                  CodeLength := 1, Colors := 2 })]
        { ID := "g1", Guess := [5, 5] }).2 "g2" =
      some { Secret := [1], AttemptsMax := 2, AttemptsLeft := 1, CodeLength := 1,
             Colors := 2 } :=
  ((C12_guess_frame
    [("g1", { Secret := [0, 5], AttemptsMax := 3, AttemptsLeft := 3,
              CodeLength := 2, Colors := 6 }),
     ("g2", { Secret := [1], AttemptsMax := 2, AttemptsLeft := 1,
              CodeLength := 1, Colors := 2 })]
    { ID := "g1", Guess := [5, 5] }).2.1 "g2" (by decide)).trans (by decide)

/-! ## Symmetry and out-of-range guesses -/

theorem exactCount_comm (a : List Int) :
    ∀ b : List Int, exactCount a b = exactCount b a := by
  induction a with
  | nil => intro b; cases b <;> simp [exactCount]
  | cons x xs ih =>
    intro b
    cases b with
    | nil => simp [exactCount]
    | cons y ys =>
      by_cases hxy : x = y
      · subst hxy; simp [exactCount, ih ys]
      · have hyx : ¬ y = x := fun h => hxy h.symm
        simp [exactCount, hxy, hyx, ih ys]

theorem restGuess_eq_restSecret_swap (a : List Int) :
    ∀ b : List Int, restGuess a b = restSecret b a := by
  induction a with
  | nil => intro b; cases b <;> simp [restGuess, restSecret]
  | cons x xs ih =>
    intro b
    cases b with
    | nil => simp [restGuess, restSecret]
    | cons y ys =>
      by_cases hxy : x = y
      · subst hxy; simp [restGuess, restSecret, ih ys]
      · have hyx : ¬ y = x := fun h => hxy h.symm
        simp [restGuess, restSecret, hxy, hyx, ih ys]

theorem bagInter_length_comm (l m : List Int) :
    (l.bagInter m).length = (m.bagInter l).length := by
  apply List.Perm.length_eq
  rw [List.perm_iff_count]
  intro c
  rw [List.count_bagInter, List.count_bagInter, min_comm]

theorem score_zero_of_disjoint (secret guess : List Int)
    (hdis : ∀ x, x ∈ secret → x ∉ guess) :
    exactCount secret guess = 0 ∧
    (restGuess secret guess).bagInter (restSecret secret guess) = [] := by
  constructor
  · rw [← exactColours_length, List.length_eq_zero, List.eq_nil_iff_forall_not_mem]
    intro x hx
    have := mem_exactColours x secret guess hx
    exact hdis x this.1 this.2
  · rw [List.eq_nil_iff_forall_not_mem]
    intro x hx
    rw [List.mem_bagInter] at hx
    exact hdis x (mem_restSecret x secret guess hx.2) (mem_restGuess x secret guess hx.1)

/-- C19: for lists of equal length `evaluateGuess a b = evaluateGuess b a`, in
both components. -/
theorem C19_evaluateGuess_symmetric (a b : List Int) (hlen : a.length = b.length) :
    evaluateGuess a b = evaluateGuess b a := by
  rw [evaluateGuess_eq a b (le_of_eq hlen), evaluateGuess_eq b a (le_of_eq hlen.symm),
    exactCount_comm a b, restGuess_eq_restSecret_swap a b,
    ← restGuess_eq_restSecret_swap b a, bagInter_length_comm]

/-- C19 at `[1,1,2,3]` and `[3,1,1,1]`. -/
theorem C19_evaluateGuess_symmetric_witness :
    ([1, 1, 2, 3] : List Int).length = ([3, 1, 1, 1] : List Int).length ∧
    evaluateGuess [1, 1, 2, 3] [3, 1, 1, 1] = evaluateGuess [3, 1, 1, 1] [1, 1, 2, 3] :=
  ⟨rfl, C19_evaluateGuess_symmetric [1, 1, 2, 3] [3, 1, 1, 1] rfl⟩

/-- C15: for a stored game whose secret has `CodeLength` entries, all in
`[0, Colors)`, every guess of length `CodeLength` gets a `GuessResponse`,
whatever its values, and a guess all of whose values are negative or `≥ Colors`
gets `Exact = 0` and `Partial = 0`. -/
theorem C15_out_of_range_guess (games : Registry) (req : GuessRequest) (g : Game)
    (hfind : games.find? req.ID = some g)
    (hwf : (g.Secret.length : Int) = g.CodeLength)
    (hrange : ∀ x, x ∈ g.Secret → 0 ≤ x ∧ x < g.Colors)
    (hlen : (req.Guess.length : Int) = g.CodeLength) :
    ∃ resp, (handleGuess games req).1 = .ok resp ∧
      ((∀ y, y ∈ req.Guess → y < 0 ∨ g.Colors ≤ y) → resp.Exact = 0 ∧ resp.Partial = 0) := by
  rw [handleGuess_accepted games req g hfind hlen hwf]
  refine ⟨_, rfl, ?_⟩
  intro hout
  have hdis : ∀ x, x ∈ g.Secret → x ∉ req.Guess := by
    intro x hx hxg
    have h1 := hrange x hx
    have h2 := hout x hxg
    omega
  obtain ⟨h0, hnil⟩ := score_zero_of_disjoint g.Secret req.Guess hdis
  simp [h0, hnil]

/-- C15 at a one-game registry with six colours and the guess `[-1, 6]`. -/
theorem C15_out_of_range_guess_witness :
    ∃ resp, (handleGuess
        [("g1", { Secret := [0, 5], AttemptsMax := 3, AttemptsLeft := 3,
                  CodeLength := 2, Colors := 6 })]
        { ID := "g1", Guess := [-1, 6] }).1 = .ok resp ∧
      resp.Exact = 0 ∧ resp.Partial = 0 := by
  obtain ⟨resp, hrun, hzero⟩ := C15_out_of_range_guess
    [("g1", { Secret := [0, 5], AttemptsMax := 3, AttemptsLeft := 3,
              CodeLength := 2, Colors := 6 })]
    { ID := "g1", Guess := [-1, 6] }
    { Secret := [0, 5], AttemptsMax := 3, AttemptsLeft := 3, CodeLength := 2, Colors := 6 }
    (by decide) (by decide) (by decide) (by decide)
  exact ⟨resp, hrun, hzero (by decide)⟩

/-! ## Created games and the random source -/

theorem randInt_range (rs : RandSource) (i : Nat) (colors : Int) (hpos : 0 < colors) :
    0 ≤ (randInt rs i colors).1 ∧ (randInt rs i colors).1 < colors := by
  unfold randInt
  cases rs.ints i with
  | none => exact ⟨le_refl 0, hpos⟩
  | some r => exact ⟨Int.emod_nonneg _ (ne_of_gt hpos), Int.emod_lt_of_pos _ hpos⟩

theorem genSecret_length (rs : RandSource) (n : Nat) (colors : Int) :
    (genSecret rs n colors).length = n := by
  simp [genSecret]

theorem genSecret_getElem? (rs : RandSource) (n : Nat) (colors : Int) (i : Nat) (hi : i < n) :
    (genSecret rs n colors)[i]? = some (randInt rs i colors).1 := by
  simp [genSecret, List.getElem?_map, List.getElem?_range hi]

theorem mem_genSecret (rs : RandSource) (n : Nat) (colors : Int) (x : Int)
    (hx : x ∈ genSecret rs n colors) : ∃ i, x = (randInt rs i colors).1 := by
  simp only [genSecret, List.mem_map] at hx
  obtain ⟨i, _, hi⟩ := hx
  exact ⟨i, hi.symm⟩

/-- The effective parameters of `handleNewGame` and the game it builds. -/
theorem handleNewGame_game (rs : RandSource) (games : Registry) (req : NewGameRequest) :
    (handleNewGame rs games req).1.Game =
      { Secret := genSecret rs (if req.CodeLength ≤ 0 then 4 else req.CodeLength).toNat
          (if req.Colors ≤ 0 then 6 else req.Colors)
        AttemptsMax := if req.Attempts ≤ 0 then 10 else req.Attempts
        AttemptsLeft := if req.Attempts ≤ 0 then 10 else req.Attempts
        CodeLength := if req.CodeLength ≤ 0 then 4 else req.CodeLength
        Colors := if req.Colors ≤ 0 then 6 else req.Colors } := by
  by_cases h1 : req.CodeLength ≤ 0 <;> by_cases h2 : req.Colors ≤ 0 <;>
    by_cases h3 : req.Attempts ≤ 0 <;>
    simp [handleNewGame, h1, h2, h3]

theorem handleNewGame_valid (rs : RandSource) (games : Registry) (req : NewGameRequest) :
    (handleNewGame rs games req).1.Game.valid := by
  rw [handleNewGame_game]
  have hc : 0 < (if req.CodeLength ≤ 0 then (4 : Int) else req.CodeLength) := by
    split <;> omega
  have hk : 0 < (if req.Colors ≤ 0 then (6 : Int) else req.Colors) := by
    split <;> omega
  have ha : 0 < (if req.Attempts ≤ 0 then (10 : Int) else req.Attempts) := by
    split <;> omega
  refine ⟨?_, hc, hk, ha, le_of_lt ha, le_refl _, ?_⟩
  · simp only [genSecret_length]
    omega
  · intro x hx
    obtain ⟨i, hi⟩ := mem_genSecret _ _ _ x hx
    rw [hi]
    exact randInt_range rs i _ hk

theorem handleNewGame_registry (rs : RandSource) (games : Registry) (req : NewGameRequest) :
    (handleNewGame rs games req).2 =
      games.store (handleNewGame rs games req).1.ID (handleNewGame rs games req).1.Game :=
  rfl

/-- C16: for every request and every outcome of the random source, the game that
`handleNewGame` stores under the returned identifier has a secret of
`CodeLength` entries, each in `[0, Colors)`, where `CodeLength` and `Colors` are
the effective values (4 and 6 replacing values `≤ 0`), and its `CodeLength`,
`Colors` and `AttemptsMax` are positive. -/
theorem C16_created_secret_in_range (rs : RandSource) (games : Registry)
    (req : NewGameRequest) :
    ∃ g, (handleNewGame rs games req).2.find? (handleNewGame rs games req).1.ID = some g ∧
      g.CodeLength = (if req.CodeLength ≤ 0 then 4 else req.CodeLength) ∧
      g.Colors = (if req.Colors ≤ 0 then 6 else req.Colors) ∧
      (g.Secret.length : Int) = g.CodeLength ∧
      (∀ x, x ∈ g.Secret → 0 ≤ x ∧ x < g.Colors) ∧
      0 < g.CodeLength ∧ 0 < g.Colors ∧ 0 < g.AttemptsMax := by
  refine ⟨(handleNewGame rs games req).1.Game, ?_, ?_, ?_, ?_⟩
  · rw [handleNewGame_registry]; exact Registry.find?_store_self _ _ _
  · rw [handleNewGame_game]
  · rw [handleNewGame_game]
  · obtain ⟨h1, h2, h3, h4, _, _, h7⟩ := handleNewGame_valid rs games req
    exact ⟨h1, h7, h2, h3, h4⟩

/-- C16 at a request with a negative colour count and a source whose draws are
`7, 8, 9`. -/
theorem C16_created_secret_in_range_witness :
    ∃ g, Registry.find?
        (handleNewGame { ints := fun i => some (i + 7), bytes := some [171] } []
          { CodeLength := 3, Colors := -2, Attempts := 0 }).2
        (handleNewGame { ints := fun i => some (i + 7), bytes := some [171] } []
          { CodeLength := 3, Colors := -2, Attempts := 0 }).1.ID = some g ∧
      g.CodeLength = 3 ∧ g.Colors = 6 ∧
      (g.Secret.length : Int) = g.CodeLength ∧
      (∀ x, x ∈ g.Secret → 0 ≤ x ∧ x < g.Colors) ∧
      0 < g.CodeLength ∧ 0 < g.Colors ∧ 0 < g.AttemptsMax :=
  C16_created_secret_in_range
    { ints := fun i => some (i + 7), bytes := some [171] } []
    { CodeLength := 3, Colors := -2, Attempts := 0 }

/-- C13, as stated, fails: with a random source all of whose calls return an
error, `handleNewGame` on the empty registry and the all-default request still
stores a game, under the fixed identifier `"id"` and with the secret
`[0,0,0,0]`; the registry is not left as it was. -/
theorem C13_failing_source_still_creates :
    handleNewGame { ints := fun _ => none, bytes := none } []
        { CodeLength := 0, Colors := 0, Attempts := 0 } =
      ({ ID := "id",
         Game := { Secret := [0, 0, 0, 0], AttemptsMax := 10, AttemptsLeft := 10,
                   CodeLength := 4, Colors := 6 } },
       [("id", { Secret := [0, 0, 0, 0], AttemptsMax := 10, AttemptsLeft := 10,
                 CodeLength := 4, Colors := 6 })]) ∧
    (handleNewGame { ints := fun _ => none, bytes := none } []
        { CodeLength := 0, Colors := 0, Attempts := 0 }).2 ≠ [] := by
  constructor
  · decide
  · decide

/-- C13, amended: an error returned by the random source is not turned into a
failure of `handleNewGame`.  For every outcome of the source the call replies
with a game, and the registry after the call is the one given with that game
assigned to the returned identifier, so the identifier maps to the game of the
reply; when `rand.Read` returns an error the identifier is the fixed string
`"id"`, and a secret entry whose `rand.Int` call returns an error is 0. -/
theorem C13_source_error_fallback (rs : RandSource) (games : Registry)
    (req : NewGameRequest) :
    ∃ resp games1, handleNewGame rs games req = (resp, games1) ∧
      games1 = games.store resp.ID resp.Game ∧
      games1.find? resp.ID = some resp.Game ∧
      (rs.bytes = none → resp.ID = "id") ∧
      (∀ i : Nat, (i : Int) < resp.Game.CodeLength → rs.ints i = none →
        resp.Game.Secret[i]? = some 0) := by
  refine ⟨(handleNewGame rs games req).1, (handleNewGame rs games req).2, rfl,
    handleNewGame_registry rs games req, ?_, ?_, ?_⟩
  · rw [handleNewGame_registry]; exact Registry.find?_store_self _ _ _
  · intro hb
    simp [handleNewGame, randID, hb]
  · intro i hi hnone
    rw [handleNewGame_game] at hi ⊢
    simp only at hi ⊢
    have hlt : i < (if req.CodeLength ≤ 0 then (4 : Int) else req.CodeLength).toNat := by
      omega
    rw [genSecret_getElem? _ _ _ i hlt]
    simp [randInt, hnone]

/-- C13, amended, at a registry that already holds a game under `"id"` and a
source whose `rand.Read` and second `rand.Int` call return an error: the game of
the reply, with identifier `"id"` and second secret entry 0, replaces the one
stored before. -/
theorem C13_source_error_fallback_witness :
    ∃ resp games1,
      handleNewGame
          { ints := fun i => if i = 1 then none else some (i + 3), bytes := none }
          [("id", { Secret := [1], AttemptsMax := 5, AttemptsLeft := 4, CodeLength := 1,
                    Colors := 2 })]
          { CodeLength := 3, Colors := 0, Attempts := 2 } = (resp, games1) ∧
      games1 = [("id", resp.Game)] ∧
      games1.find? resp.ID = some resp.Game ∧
      resp.ID = "id" ∧ resp.Game.Secret[1]? = some 0 := by
  obtain ⟨resp, games1, hrun, hstore, hfind, hid, hsec⟩ := C13_source_error_fallback
    { ints := fun i => if i = 1 then none else some (i + 3), bytes := none }
    [("id", { Secret := [1], AttemptsMax := 5, AttemptsLeft := 4, CodeLength := 1,
              Colors := 2 })]
    { CodeLength := 3, Colors := 0, Attempts := 2 }
  have hid1 : resp.ID = "id" := hid rfl
  refine ⟨resp, games1, hrun, ?_, hfind, hid1, hsec 1 ?_ (by decide)⟩
  · rw [hstore, hid1]
    simp [Registry.store]
  · have hcl : resp.Game.CodeLength = 3 := by
      have := congrArg (fun r => r.1.Game.CodeLength) hrun
      simp only at this
      rw [← this]
      decide
    rw [hcl]
    decide

/-! ## Invariants of the reachable registries -/

theorem Registry.find?_store (games : Registry) (id other : String) (g : Game) :
    (games.store id g).find? other = if other = id then some g else games.find? other := by
  by_cases h : other = id
  · subst h; simp [Registry.find?_store_self]
  · simp [h, Registry.find?_store_ne games id other g h]

theorem Game.valid_decrement (g : Game) (hv : g.valid) :
    Game.valid
      { g with AttemptsLeft :=
          if g.AttemptsLeft > 0 then g.AttemptsLeft - 1 else g.AttemptsLeft } := by
  obtain ⟨h1, h2, h3, h4, h5, h6, h7⟩ := hv
  refine ⟨h1, h2, h3, h4, ?_, ?_, h7⟩
  · show 0 ≤ (if g.AttemptsLeft > 0 then g.AttemptsLeft - 1 else g.AttemptsLeft)
    split <;> omega
  · show (if g.AttemptsLeft > 0 then g.AttemptsLeft - 1 else g.AttemptsLeft) ≤ g.AttemptsMax
    split <;> omega

/-- Every game of a reachable registry is valid. -/
theorem reachable_valid (games : Registry) (hr : Reachable games) :
    ∀ (id : String) (g : Game), games.find? id = some g → g.valid := by
  induction hr with
  | empty => intro id g h; simp [Registry.find?] at h
  | newGame games rs req _ ih =>
    intro id g h
    rw [handleNewGame_registry, Registry.find?_store] at h
    by_cases hid : id = (handleNewGame rs games req).1.ID
    · rw [if_pos hid] at h
      rw [← Option.some.inj h]
      exact handleNewGame_valid rs games req
    · rw [if_neg hid] at h
      exact ih id g h
  | guess games req _ ih =>
    intro id g h
    rcases handleGuess_registry games req with hsame | ⟨g0, hfind, hst⟩
    · rw [hsame] at h; exact ih id g h
    · rw [hst, Registry.find?_store] at h
      by_cases hid : id = req.ID
      · rw [if_pos hid] at h
        rw [← Option.some.inj h]
        exact Game.valid_decrement g0 (ih req.ID g0 hfind)
      · rw [if_neg hid] at h
        exact ih id g h

theorem evaluateGuess_short (secret : List Int) :
    ∀ (guess : List Int) (st : Int × Counts), guess.length < secret.length →
      (List.range secret.length).foldlM (firstLoopBody secret guess) st = none := by
  induction secret with
  | nil => intro guess st h; simp at h
  | cons s ss ih =>
    intro guess st h
    rw [List.length_cons, foldlM_range_succ]
    cases guess with
    | nil => simp [firstLoopBody]
    | cons g gs =>
      have h1 : gs.length < ss.length := by simpa using h
      rw [firstLoopBody_cons]
      by_cases hsg : s = g
      · simp only [firstLoopBody, List.getElem?_cons_zero, hsg, if_true, Option.some_bind]
        exact ih gs _ h1
      · simp only [firstLoopBody, List.getElem?_cons_zero, hsg, if_false, Option.some_bind]
        exact ih gs _ h1

/-- C18: in every reachable registry each game has
`0 ≤ AttemptsLeft ≤ AttemptsMax`; a `handleGuess` never raises the counter of a
stored game, and a `handleNewGame` leaves the game under every key other than
the one it writes (where it puts a new game) as it was. -/
theorem C18_attempts_bounds (games : Registry) (hr : Reachable games) :
    (∀ (id : String) (g : Game), games.find? id = some g →
      0 ≤ g.AttemptsLeft ∧ g.AttemptsLeft ≤ g.AttemptsMax) ∧
    (∀ (req : GuessRequest) (id : String) (g g1 : Game), games.find? id = some g →
      (handleGuess games req).2.find? id = some g1 →
        g1.AttemptsLeft ≤ g.AttemptsLeft ∧ g1.AttemptsMax = g.AttemptsMax) ∧
    (∀ (rs : RandSource) (req : NewGameRequest) (id : String),
      id ≠ (handleNewGame rs games req).1.ID →
        (handleNewGame rs games req).2.find? id = games.find? id) := by
  refine ⟨?_, ?_, ?_⟩
  · intro id g h
    obtain ⟨_, _, _, _, h5, h6, _⟩ := reachable_valid games hr id g h
    exact ⟨h5, h6⟩
  · intro req id g g1 hg hg1
    rcases handleGuess_registry games req with hsame | ⟨g0, hfind, hst⟩
    · rw [hsame, hg] at hg1
      rw [← Option.some.inj hg1]
      exact ⟨le_refl _, rfl⟩
    · rw [hst, Registry.find?_store] at hg1
      by_cases hid : id = req.ID
      · rw [if_pos hid] at hg1
        rw [hid, hfind] at hg
        have hgg : g0 = g := Option.some.inj hg
        subst hgg
        rw [← Option.some.inj hg1]
        refine ⟨?_, rfl⟩
        show (if g0.AttemptsLeft > 0 then g0.AttemptsLeft - 1 else g0.AttemptsLeft)
          ≤ g0.AttemptsLeft
        split <;> omega
      · rw [if_neg hid, hg] at hg1
        rw [← Option.some.inj hg1]
        exact ⟨le_refl _, rfl⟩
  · intro rs req id hid
    rw [handleNewGame_registry]
    exact Registry.find?_store_ne _ _ _ _ hid

/-- C18 at the registry reached by one `handleNewGame` with two attempts and two
guesses against the game. -/
theorem C18_attempts_bounds_witness :
    ∃ g : Game,
      Registry.find?
        (handleGuess
          (handleGuess
            (handleNewGame { ints := fun i => some i, bytes := some [1] } []
              { CodeLength := 2, Colors := 3, Attempts := 2 }).2
            { ID := "01", Guess := [2, 2] }).2
          { ID := "01", Guess := [2, 2] }).2 "01" = some g ∧
      g.AttemptsLeft = 0 ∧ 0 ≤ g.AttemptsLeft ∧ g.AttemptsLeft ≤ g.AttemptsMax :=
  ⟨{ Secret := [0, 1], AttemptsMax := 2, AttemptsLeft := 0, CodeLength := 2, Colors := 3 },
   rfl, rfl,
   (C18_attempts_bounds _
    (Reachable.guess _ { ID := "01", Guess := [2, 2] }
      (Reachable.guess _ { ID := "01", Guess := [2, 2] }
        (Reachable.newGame [] { ints := fun i => some i, bytes := some [1] }
          { CodeLength := 2, Colors := 3, Attempts := 2 } Reachable.empty)))).1 "01"
    { Secret := [0, 1], AttemptsMax := 2, AttemptsLeft := 0, CodeLength := 2, Colors := 3 }
    rfl⟩

/-- C20: in every reachable registry each game has `len(Secret) = CodeLength`,
so no `handleGuess` on it ends in the index-out-of-range panic of
`evaluateGuess`; on its own, `evaluateGuess` does end in that panic whenever the
guess is shorter than the secret. -/
theorem C20_no_index_panic (games : Registry) (hr : Reachable games) :
    (∀ (id : String) (g : Game), games.find? id = some g →
      (g.Secret.length : Int) = g.CodeLength) ∧
    (∀ req : GuessRequest, (handleGuess games req).1 ≠ .error .indexOutOfRange) ∧
    (∀ secret guess : List Int, guess.length < secret.length →
      evaluateGuess secret guess = none) := by
  refine ⟨fun id g h => (reachable_valid games hr id g h).1, ?_, ?_⟩
  · intro req
    cases hfind : games.find? req.ID with
    | none => simp [handleGuess, hfind]
    | some g =>
      by_cases hlen : (req.Guess.length : Int) = g.CodeLength
      · rw [handleGuess_accepted games req g hfind hlen
          (reachable_valid games hr req.ID g hfind).1]
        simp
      · simp [handleGuess, hfind, hlen]
  · intro secret guess hshort
    unfold evaluateGuess
    rw [evaluateGuess_short secret guess _ hshort]

/-- C20 at the registry reached by one `handleNewGame`, with a guess of the code
length against the game it stored. -/
theorem C20_no_index_panic_witness :
    (handleGuess
      (handleNewGame { ints := fun i => some i, bytes := some [1] } []
        { CodeLength := 2, Colors := 3, Attempts := 2 }).2
      { ID := "01", Guess := [2, 2] }).1 ≠ .error .indexOutOfRange :=
  (C20_no_index_panic _
    (Reachable.newGame [] { ints := fun i => some i, bytes := some [1] }
      { CodeLength := 2, Colors := 3, Attempts := 2 } Reachable.empty)).2.1
    { ID := "01", Guess := [2, 2] }

/-! ## Guesses after a win or a loss -/

/-- The replies to a sequence of guesses of the code length against one valid
game: reply `k` carries the counter `max 0 (AttemptsLeft - (k + 1))`, wins
exactly when guess `k` is the secret, and is lost exactly when that counter is 0
and the guess does not win. -/
theorem playGuesses_replies (id : String) (guesses : List (List Int)) :
    ∀ (games : Registry) (g : Game), games.find? id = some g →
      (g.Secret.length : Int) = g.CodeLength → 0 ≤ g.AttemptsLeft →
      (∀ x, x ∈ guesses → (x.length : Int) = g.CodeLength) →
      ∀ (k : Nat) (guess : List Int), guesses[k]? = some guess →
        ∃ resp, (playGuesses games id guesses).1[k]? = some (.ok resp) ∧
          resp.AttemptsLeft = max 0 (g.AttemptsLeft - (k + 1)) ∧
          (resp.Won = true ↔ guess = g.Secret) ∧
          (resp.Lost = true ↔ (resp.AttemptsLeft = 0 ∧ resp.Won = false)) := by
  induction guesses with
  | nil => intro games g _ _ _ _ k guess hk; simp at hk
  | cons x rest ih =>
    intro games g hfind hwf hnn hlen k guess hk
    have hx : (x.length : Int) = g.CodeLength := hlen x (by simp)
    obtain ⟨resp, left, hrun, hleft, hexact, hal, hwon, hlost, _⟩ :=
      handleGuess_accepted_fields games { ID := id, Guess := x } g hfind hx hwf
    have hleft1 : left = max 0 (g.AttemptsLeft - 1) := by
      rw [hleft]; split <;> omega
    replace hexact : resp.Exact = exactCount g.Secret x := hexact
    cases k with
    | zero =>
      have hgx : guess = x := by simpa using hk.symm
      subst hgx
      refine ⟨resp, ?_, ?_, ?_, ?_⟩
      · simp [playGuesses, hrun]
      · rw [hal, hleft1]; simp
      · rw [hwon, hexact, decide_eq_true_eq]
        have hl : g.Secret.length = guess.length := by omega
        have hiff := exactCount_eq_length_iff g.Secret guess hl
        constructor
        · intro h; exact (hiff.mp (by omega)).symm
        · intro h; have := hiff.mpr h.symm; omega
      · rw [hlost, hal]
        have hl0 : 0 ≤ left := by omega
        cases hw : resp.Won
        · simp; omega
        · simp
    | succ k1 =>
      have hk1 : rest[k1]? = some guess := by simpa using hk
      have hnn1 : 0 ≤ ({ g with AttemptsLeft := left } : Game).AttemptsLeft := by
        show 0 ≤ left
        omega
      obtain ⟨resp1, hget, hal1, hwon1, hlost1⟩ :=
        ih (games.store id { g with AttemptsLeft := left }) { g with AttemptsLeft := left }
          (Registry.find?_store_self _ _ _) hwf hnn1
          (fun y hy => hlen y (by simp [hy])) k1 guess hk1
      refine ⟨resp1, ?_, ?_, hwon1, hlost1⟩
      · simp only [playGuesses, hrun, List.getElem?_cons_succ]
        exact hget
      · rw [hal1]
        show max 0 (left - ((k1 : Int) + 1)) = max 0 (g.AttemptsLeft - (((k1 + 1 : Nat) : Int) + 1))
        push_cast
        omega

/-- C14, as stated, fails on games built by `handleNewGame` (secret `[1,2]`,
identifier `"ab"`): with two attempts, the guess `[1,2]` is answered
`Won = true` and the following guess `[0,0]` is answered `Lost = true`; with one
attempt, the guess `[0,0]` is answered `Lost = true` and the following guess
`[1,2]` is answered `Won = true`. -/
theorem C14_outcome_not_terminal :
    (playGuesses
        (handleNewGame { ints := fun i => some (i + 1), bytes := some [171] } []
          { CodeLength := 2, Colors := 6, Attempts := 2 }).2
        "ab" [[1, 2], [0, 0]]).1 =
      [.ok { Exact := 2, Partial := 0, AttemptsLeft := 1, Won := true, Lost := false,
             Secret := [] },
       .ok { Exact := 0, Partial := 0, AttemptsLeft := 0, Won := false, Lost := true,
             Secret := [1, 2] }] ∧
    (playGuesses
        (handleNewGame { ints := fun i => some (i + 1), bytes := some [171] } []
          { CodeLength := 2, Colors := 6, Attempts := 1 }).2
        "ab" [[0, 0], [1, 2]]).1 =
      [.ok { Exact := 0, Partial := 0, AttemptsLeft := 0, Won := false, Lost := true,
             Secret := [1, 2] },
       .ok { Exact := 2, Partial := 0, AttemptsLeft := 0, Won := true, Lost := false,
             Secret := [] }] := by
  constructor
  · rfl
  · rfl

/-- C14, amended: the outcome is recomputed for every guess.  In a sequence of
guesses of the code length against one game (secret of `CodeLength` entries,
counter `≥ 0`), every reply has `Won = true` exactly when its guess is the
secret and `Lost = true` exactly when its counter is 0 and `Won = false`; and
every reply after one with `Lost = true` has `AttemptsLeft = 0`, and has
`Lost = true` exactly when `Won = false`. -/
theorem C14_outcome_recomputed (games : Registry) (id : String) (g : Game)
    (guesses : List (List Int))
    (hfind : games.find? id = some g)
    (hwf : (g.Secret.length : Int) = g.CodeLength)
    (hnn : 0 ≤ g.AttemptsLeft)
    (hlen : ∀ x, x ∈ guesses → (x.length : Int) = g.CodeLength) :
    (∀ (k : Nat) (guess : List Int), guesses[k]? = some guess →
      ∃ resp, (playGuesses games id guesses).1[k]? = some (.ok resp) ∧
        (resp.Won = true ↔ guess = g.Secret) ∧
        (resp.Lost = true ↔ (resp.AttemptsLeft = 0 ∧ resp.Won = false))) ∧
    (∀ (i j : Nat) (ri rj : GuessResponse), i < j →
      (playGuesses games id guesses).1[i]? = some (.ok ri) →
      (playGuesses games id guesses).1[j]? = some (.ok rj) →
      ri.Lost = true →
        rj.AttemptsLeft = 0 ∧ (rj.Lost = true ↔ rj.Won = false)) := by
  have hlenReplies : ∀ (gs : List (List Int)) (gm : Registry),
      (playGuesses gm id gs).1.length = gs.length := by
    intro gs
    induction gs with
    | nil => intro gm; simp [playGuesses]
    | cons x rest ih => intro gm; simp [playGuesses, ih]
  constructor
  · intro k guess hk
    obtain ⟨resp, h1, _, h3, h4⟩ :=
      playGuesses_replies id guesses games g hfind hwf hnn hlen k guess hk
    exact ⟨resp, h1, h3, h4⟩
  · intro i j ri rj hij hi hj hlost
    have hib : i < guesses.length := by
      rw [← hlenReplies guesses games]
      exact (List.getElem?_eq_some_iff.mp hi).1
    have hjb : j < guesses.length := by
      rw [← hlenReplies guesses games]
      exact (List.getElem?_eq_some_iff.mp hj).1
    obtain ⟨ri1, hi1, hali, _, hlosti⟩ :=
      playGuesses_replies id guesses games g hfind hwf hnn hlen i guesses[i]
        (List.getElem?_eq_getElem hib)
    obtain ⟨rj1, hj1, halj, _, hlostj⟩ :=
      playGuesses_replies id guesses games g hfind hwf hnn hlen j guesses[j]
        (List.getElem?_eq_getElem hjb)
    rw [hi] at hi1
    rw [hj] at hj1
    have hri : ri = ri1 := by
      have := Option.some.inj hi1
      exact Except.ok.inj this
    have hrj : rj = rj1 := by
      have := Option.some.inj hj1
      exact Except.ok.inj this
    subst hri hrj
    have hi0 : ri.AttemptsLeft = 0 := (hlosti.mp hlost).1
    have hj0 : rj.AttemptsLeft = 0 := by
      rw [halj]
      rw [hali] at hi0
      omega
    refine ⟨hj0, ?_⟩
    rw [hlostj]
    constructor
    · intro h; exact h.2
    · intro h; exact ⟨hj0, h⟩

/-- C14, amended, at a one-game registry with one attempt left and the guesses
`[5,5]`, `[0,5]`, `[1,1]`: the first reply is lost, and the third has the
counter 0 and is lost as it does not win. -/
theorem C14_outcome_recomputed_witness :
    ∃ ri rj : GuessResponse,
      (playGuesses
        [("g1", { Secret := [0, 5], AttemptsMax := 3, AttemptsLeft := 1,
                  CodeLength := 2, Colors := 6 })]
        "g1" [[5, 5], [0, 5], [1, 1]]).1[0]? = some (.ok ri) ∧
      (playGuesses
        [("g1", { Secret := [0, 5], AttemptsMax := 3, AttemptsLeft := 1,
                  CodeLength := 2, Colors := 6 })]
        "g1" [[5, 5], [0, 5], [1, 1]]).1[2]? = some (.ok rj) ∧
      ri.Lost = true ∧ rj.AttemptsLeft = 0 ∧ (rj.Lost = true ↔ rj.Won = false) :=
  ⟨{ Exact := 1, Partial := 0, AttemptsLeft := 0, Won := false, Lost := true,
     Secret := [0, 5] },
   { Exact := 0, Partial := 0, AttemptsLeft := 0, Won := false, Lost := true,
     Secret := [0, 5] },
   rfl, rfl, rfl,
   (C14_outcome_recomputed
    [("g1", { Secret := [0, 5], AttemptsMax := 3, AttemptsLeft := 1,
              CodeLength := 2, Colors := 6 })]
    "g1"
    { Secret := [0, 5], AttemptsMax := 3, AttemptsLeft := 1, CodeLength := 2, Colors := 6 }
    [[5, 5], [0, 5], [1, 1]]
    (by decide) (by decide) (by decide) (by decide)).2 0 2 _ _ (by decide) rfl rfl rfl⟩

/-! ## Concurrent guesses -/

theorem Registry.readAttempts_writeAttempts (games : Registry) (id : String) (g : Game)
    (v : Int) (hfind : games.find? id = some g) :
    (games.writeAttempts id v).readAttempts id = v ∧
    games.writeAttempts id v = games.store id { g with AttemptsLeft := v } := by
  simp [Registry.writeAttempts, Registry.readAttempts, hfind, Registry.find?_store_self]

/-- A call that runs on its own, with no other call in between, is
`handleGuess`: the step model refines the sequential handler. -/
theorem GuessThread.runAlone_eq_handleGuess (games : Registry) (req : GuessRequest) :
    GuessThread.runAlone games (.start req) 6 =
      (.done (handleGuess games req).1, (handleGuess games req).2) := by
  cases hfind : games.find? req.ID with
  | none => simp [GuessThread.runAlone, GuessThread.step, handleGuess, hfind]
  | some g =>
    by_cases hlen : (req.Guess.length : Int) ≠ g.CodeLength
    · simp [GuessThread.runAlone, GuessThread.step, handleGuess, hfind, hlen]
    · cases hev : evaluateGuess g.Secret req.Guess with
      | none => simp [GuessThread.runAlone, GuessThread.step, handleGuess, hfind, hlen, hev]
      | some r =>
        obtain ⟨exact, part⟩ := r
        have hrw := Registry.readAttempts_writeAttempts games req.ID g (g.AttemptsLeft - 1) hfind
        have hread : games.readAttempts req.ID = g.AttemptsLeft := by
          simp [Registry.readAttempts, hfind]
        by_cases hpos : g.AttemptsLeft > 0
        · have hpos1 : 0 < g.AttemptsLeft := hpos
          have hread2 : (games.store req.ID
              { g with AttemptsLeft := g.AttemptsLeft - 1 }).readAttempts req.ID =
              g.AttemptsLeft - 1 := by
            simp [Registry.readAttempts, Registry.find?_store_self]
          simp [GuessThread.runAlone, GuessThread.step, handleGuess, hfind, hlen, hev, hread,
            hpos1, hrw.2, hread2]
        · have hpos1 : ¬ 0 < g.AttemptsLeft := hpos
          have hstore : games.store req.ID g = games := by
            clear hrw hread hev hlen hpos hpos1
            induction games with
            | nil => simp [Registry.find?] at hfind
            | cons kv rest ih =>
              obtain ⟨k, v⟩ := kv
              by_cases hk : k = req.ID
              · simp [Registry.find?, hk] at hfind
                simp [Registry.store, hk, hfind]
              · simp only [Registry.find?, hk, if_false] at hfind
                simp [Registry.store, hk, ih hfind]
          simp [GuessThread.runAlone, GuessThread.step, handleGuess, hfind, hlen, hev, hread,
            hpos1, hstore]

/-- C17, evaluated on the code: a game created with `attempts = 2` (secret
`[1,2]`, identifier `"ab"`) and two calls of `handleGuess` with guesses of the
code length, scheduled so that both read the operand of `g.AttemptsLeft--`
before either writes.  Both calls run to their reply; the stored counter ends at
1, not 0, and both replies report `AttemptsLeft = 1`. -/
theorem C17_concurrent_decrement_lost :
    Conc.run
        { games := (handleNewGame { ints := fun i => some (i + 1), bytes := some [171] } []
            { CodeLength := 2, Colors := 6, Attempts := 2 }).2,
          threads := [.start { ID := "ab", Guess := [0, 0] },
                      .start { ID := "ab", Guess := [3, 3] }] }
        [0, 0, 0, 1, 1, 1, 0, 1, 0, 0, 1, 1] =
      { games := [("ab", { Secret := [1, 2], AttemptsMax := 2, AttemptsLeft := 1,
                           CodeLength := 2, Colors := 6 })],
        threads :=
          [.done (.ok { Exact := 0, Partial := 0, AttemptsLeft := 1, Won := false,
                        Lost := false, Secret := [] }),
           .done (.ok { Exact := 0, Partial := 0, AttemptsLeft := 1, Won := false,
                        Lost := false, Secret := [] })] } := by
  rfl

end Mastermind
